import Mathlib

/-!
# Code generation of the transpiler AST

A shallow embedding of `src/ast/AST.cpp`: the node classes, the promotion rule
`selectType`, and the `compile` traversal that writes target text.

Conventions of the embedding.

* The output stream is the text written to it; `std::endl` is the character `\n`.
* A C++ `char` is a `Char`, a `std::string` a `String`.
* `compile` returns `none` where the C++ code has no defined result (a failed
  `dynamic_pointer_cast` that is dereferenced, `back()` of an empty list).
* The constructors of the inductive types are the field layouts of the classes;
  the C++ constructors, which compute some of the fields, are the functions
  `newAddOP`, `newArrayAccess`, ...
* Owned pointers (`condition`, `left`, `index`, ...) are taken to be non-null;
  the two pointers the code itself tests against `nullptr` (`elseBlock`,
  `content`) are `Option`s.
* The indentation level is an `int` that the traversal only ever increments from
  the level it is started with; it is a `Nat` here.
-/

namespace AST

/-! ## Types.hpp -/

/-- Modelled from the spec: the enumeration `Type` is declared in `Types.hpp`, which is
not among the sources. The spec lists its values as Integer, Float, Character and
CharacterArray; the enumerators used by `AST.cpp` are `INT`, `FLT`, `CHR`, `ARR_CHR`. -/
inductive Ty where
  | INT
  | FLT
  | CHR
  | ARR_CHR
  deriving DecidableEq, Repr

/-- Modelled from the spec: the payload `type_t` is declared in `Types.hpp`, which is not
among the sources. `AST.cpp` reads its members `_int`, `_flt`, `_chr`, `_str`, the member
being selected by the type tag of the node. The floating-point member is represented by
the text that stream insertion writes for it. -/
structure type_t where
  _int : Int := 0
  _flt : String := "0"
  _chr : Char := 'a'
  _str : String := ""
  deriving DecidableEq, Repr

/-! ## Machine integers -/

/-- Conversion of an integer to a 32-bit `int` (two's complement). -/
def toInt32 (n : Int) : Int := (n + 2 ^ 31) % 2 ^ 32 - 2 ^ 31

/-- Conversion of an `int` to `unsigned int`. -/
def toUInt32 (n : Int) : Nat := (n % 2 ^ 32).toNat

/-! ## Node classes -/

/-- A `Variable` object held by value (`Function::params`, `For::var`,
`Declaration::variable`): the identifier and the declared type. -/
structure Variable where
  id_ : String
  type_ : Ty
  deriving DecidableEq, Repr

mutual
/-- The objects a `shared_ptr<Variable>` can point to: `Variable` and the classes derived
from it. `size` is the field of `Array`. -/
inductive VarNode where
  | Variable (id_ : String) (type_ : Ty)
  | Array (id_ : String) (size : Int) (type_ : Ty)
  | ArrayDeclaration (id_ : String) (size : Int) (type_ : Ty)
  | ArrayAccess (id_ : String) (size : Int) (type_ : Ty) (index : Node)
/-- The objects a `shared_ptr<TypedNode>` can point to. The parameters of a `Funcall`
are shared pointers that `Funcall::compile` compares with one another, so each comes
with the address it holds. -/
inductive TypedNode where
  | Value (value_ : type_t) (type_ : Ty)
  | Var (v : VarNode)
  | Funcall (functionName : String) (params : List (Nat × TypedNode)) (type_ : Ty)
  | AddOP (left right : TypedNode) (type_ : Ty)
  | MnsOP (left right : TypedNode) (type_ : Ty)
  | TmsOP (left right : TypedNode) (type_ : Ty)
  | DivOP (left right : TypedNode) (type_ : Ty)
  | Function (id : String) (params : List Variable) (block : Block) (type_ : List Ty)
/-- A `Block`: the list `instructions_`, in insertion order. -/
inductive Block where
  | mk (instructions_ : List Node)
/-- The objects a `shared_ptr<Node>` can point to. -/
inductive Node where
  | Typed (t : TypedNode)
  | Block (b : Block)
  | Assignment (variable_ : VarNode) (value : TypedNode)
  | Declaration (variable_ : Variable)
  | If (condition : Node) (block : Block) (elseBlock : Option Block)
  | For (var : Variable) (begin_ end_ step : Node) (block : Block)
  | While (condition : Node) (block : Block)
  | EqlOP (left right : Node)
  | SupOP (left right : Node)
  | InfOP (left right : Node)
  | SeqOP (left right : Node)
  | IeqOP (left right : Node)
  | OrOP (left right : Node)
  | AndOP (left right : Node)
  | XorOP (left right : Node)
  | NotOP (param : Node)
  | Print (str : String) (content : Option Node)
  | Read (variable_ : TypedNode)
  | Return (returnExpr : Node)
end

/-- The list held by a `Block`. -/
def Block.instructions_ : Block → List Node
  | .mk l => l

/-! ## Accessors -/

/-- `Variable::id()`. -/
def VarNode.id : VarNode → String
  | .Variable i _ => i
  | .Array i _ _ => i
  | .ArrayDeclaration i _ _ => i
  | .ArrayAccess i _ _ _ => i

/-- `TypedNode::type()` on a `Variable` or a class derived from it. -/
def VarNode.type : VarNode → Ty
  | .Variable _ t => t
  | .Array _ _ t => t
  | .ArrayDeclaration _ _ t => t
  | .ArrayAccess _ _ t _ => t

/-- `std::dynamic_pointer_cast<Array>` on a `shared_ptr<Variable>`: the identifier and
size of the `Array` subobject (`getId()`, `getSize()`), or `none` for a null result. -/
def VarNode.asArray : VarNode → Option (String × Int)
  | .Variable _ _ => none
  | .Array i s _ => some (i, s)
  | .ArrayDeclaration i s _ => some (i, s)
  | .ArrayAccess i s _ _ => some (i, s)

/-- `Array::getSize()`, where the object is an `Array`. -/
def VarNode.getSize (v : VarNode) : Option Int := v.asArray.map Prod.snd

/-- `TypedNode::type()`. `Function::type()` returns `type_.back()`, which has no result
on an empty list. -/
def TypedNode.type : TypedNode → Option Ty
  | .Value _ t => some t
  | .Var v => some v.type
  | .Funcall _ _ t => some t
  | .AddOP _ _ t => some t
  | .MnsOP _ _ t => some t
  | .TmsOP _ _ t => some t
  | .DivOP _ _ t => some t
  | .Function _ _ _ ts => ts.getLast?

/-- `std::dynamic_pointer_cast<Value>` on a `shared_ptr<TypedNode>`: the payload
(`value()`), or `none` for a null result. -/
def TypedNode.asValue : TypedNode → Option type_t
  | .Value v _ => some v
  | _ => none

/-! ## Promotion and the constructors -/

/-- `selectType` (AST.cpp, line 377). -/
def selectType (left right : Ty) : Ty :=
  if left = Ty.INT ∧ right = Ty.INT then Ty.INT else Ty.FLT

/-- `AddOP::AddOP`: stores the operands and `selectType(left->type(), right->type())`. -/
def newAddOP (left right : TypedNode) : Option TypedNode := do
  let lt ← left.type
  let rt ← right.type
  some (TypedNode.AddOP left right (selectType lt rt))

/-- `MnsOP::MnsOP`. -/
def newMnsOP (left right : TypedNode) : Option TypedNode := do
  let lt ← left.type
  let rt ← right.type
  some (TypedNode.MnsOP left right (selectType lt rt))

/-- `TmsOP::TmsOP`. -/
def newTmsOP (left right : TypedNode) : Option TypedNode := do
  let lt ← left.type
  let rt ← right.type
  some (TypedNode.TmsOP left right (selectType lt rt))

/-- `DivOP::DivOP`. -/
def newDivOP (left right : TypedNode) : Option TypedNode := do
  let lt ← left.type
  let rt ← right.type
  some (TypedNode.DivOP left right (selectType lt rt))

/-- `Array::Array(name, size, type)`. -/
def newArray (name : String) (size : Int) (type : Ty) : VarNode :=
  VarNode.Array name size type

/-- `ArrayDeclaration::ArrayDeclaration(name, size, type)`. -/
def newArrayDeclaration (name : String) (size : Int) (type : Ty) : VarNode :=
  VarNode.ArrayDeclaration name size type

/-- `ArrayAccess::ArrayAccess(name, type, index)`: the `Array` base is built with
size `-1`. -/
def newArrayAccess (name : String) (type : Ty) (index : Node) : VarNode :=
  VarNode.ArrayAccess name (-1) type index

/-- `If::If(c, b)`: no else block. -/
def newIf (c : Node) (b : Block) : Node := Node.If c b none

/-- `If::createElse`: overwrites `elseBlock`; no effect on a node that is not an `If`. -/
def createElse : Node → Block → Node
  | .If c b _, e => Node.If c b (some e)
  | n, _ => n

/-- `Print::Print(std::shared_ptr<Node>)`. -/
def newPrintContent (content : Node) : Node := Node.Print "" (some content)

/-- `Print::Print(std::string)`. -/
def newPrintStr (str : String) : Node := Node.Print str none

/-! ## Emission -/

/-- `indent(fs, lvl)`: `lvl` tab characters. -/
def indent (lvl : Nat) : String := String.mk (List.replicate lvl '\t')

/-- The value of `size` in `Assignment::compile` (line 185):
`std::min(array->getSize(), (int) str.size() - 2 + 1)` converted to `unsigned int`. -/
def copySize (arraySize : Int) (str : String) : Nat :=
  toUInt32 (min arraySize (toInt32 (toInt32 (str.length : Int) - 2 + 1)))

/-- The number written in the header of the copy loop (line 190): `size - 1`, computed in
`unsigned int`. -/
def copyBound (arraySize : Int) (str : String) : Nat :=
  toUInt32 ((copySize arraySize str : Int) - 1)

/-- The parameter list written by `Function::compile`: the first identifier, then each
further one preceded by `,`. -/
def compileFunParams : List Variable → String
  | [] => ""
  | p :: tmp => p.id_ ++ tmp.foldl (fun acc v => acc ++ "," ++ v.id_) ""

/-- The opening of the wrapper `Assignment::compile` selects from the type of the
destination (the `switch` at line 197). -/
def castOpen : Ty → String
  | .INT => "int("
  | .CHR => "chr("
  | .FLT => "float("
  | _ => "("

/-- What `Read::compile` writes after the destination (the `switch` at line 641). -/
def readSuffix : Ty → String
  | .INT => " = int(input())"
  | .FLT => " = flt(input())"
  | _ => " = input()"

/-- `Value::compile`. -/
def compileValue (v : type_t) : Ty → String
  | .INT => toString v._int
  | .FLT => v._flt
  | .CHR => "'" ++ String.singleton v._chr ++ "'"
  | .ARR_CHR => "[c for c in " ++ v._str ++ "]+[0]"

/-- The array/string branch of `Assignment::compile` (lines 180 to 193), after the
indentation of line 177. Both downcasts are dereferenced without a test. -/
def compileStringSet (variable_ : VarNode) (value : TypedNode) (lvl : Nat) : Option String := do
  let val ← value.asValue
  let str := val._str
  let array ← variable_.asArray
  some (array.1 ++ "=[0 for _ in range(" ++ toString array.2 ++ ")]" ++ "\n"
    ++ indent lvl
    ++ "for _ZZ_TRANSPILER_STRINGSET_INDEX in range(" ++ toString (copyBound array.2 str)
    ++ "):" ++ "\n"
    ++ indent (lvl + 1)
    ++ variable_.id ++ "[_ZZ_TRANSPILER_STRINGSET_INDEX]="
    ++ str ++ "[_ZZ_TRANSPILER_STRINGSET_INDEX]")

mutual
/-- The `compile` method of `Variable`, `ArrayDeclaration` and `ArrayAccess` (`Array`
inherits that of `Variable`). `showType` is the stream insertion of a `Type`, declared
in the absent `Types.hpp`. -/
def VarNode.compile (showType : Ty → String) : VarNode → Nat → Option String
  | .Variable i _, _ => some i
  | .Array i _ _, _ => some i
  | .ArrayDeclaration i size _, lvl =>
      some (indent lvl ++ i ++ "=[0 for _ in range(" ++ toString size ++ ")]")
  | .ArrayAccess i _ _ index, _ => do
      let x ← index.compile showType 0
      some (i ++ "[" ++ x ++ "]")
/-- The `compile` method of the typed nodes. -/
def TypedNode.compile (showType : Ty → String) : TypedNode → Nat → Option String
  | .Value v t, _ => some (compileValue v t)
  | .Var v, lvl => v.compile showType lvl
  | .Funcall functionName params _, lvl => do
      let ps ← compileParams showType params (params.getLast?.map Prod.fst)
      some (indent lvl ++ functionName ++ "(" ++ ps ++ ")")
  | .AddOP l r _, _ => do
      let a ← l.compile showType 0
      let b ← r.compile showType 0
      some ("(" ++ a ++ "+" ++ b ++ ")")
  | .MnsOP l r _, _ => do
      let a ← l.compile showType 0
      let b ← r.compile showType 0
      some ("(" ++ a ++ "-" ++ b ++ ")")
  | .TmsOP l r _, _ => do
      let a ← l.compile showType 0
      let b ← r.compile showType 0
      some ("(" ++ a ++ "*" ++ b ++ ")")
  | .DivOP l r _, _ => do
      let a ← l.compile showType 0
      let b ← r.compile showType 0
      some ("(" ++ a ++ "/" ++ b ++ ")")
  | .Function id params block _, _ => do
      let body ← block.compile showType 0
      some ("def " ++ id ++ "(" ++ compileFunParams params ++ "):" ++ "\n" ++ body)
/-- The loop of `Funcall::compile`: each parameter compiled at level 0, followed by `,`
when its pointer differs from `params.back()`. -/
def compileParams (showType : Ty → String) :
    List (Nat × TypedNode) → Option Nat → Option String
  | [], _ => some ""
  | p :: rest, back => do
      let a ← p.2.compile showType 0
      let r ← compileParams showType rest back
      some (a ++ (if some p.1 ≠ back then "," else "") ++ r)
/-- `Block::compile`. -/
def Block.compile (showType : Ty → String) : Block → Nat → Option String
  | .mk instructions_, lvl => compileInstructions showType instructions_ lvl
/-- The loop of `Block::compile`: each instruction at `lvl + 1`, then `std::endl`. -/
def compileInstructions (showType : Ty → String) : List Node → Nat → Option String
  | [], _ => some ""
  | op :: rest, lvl => do
      let a ← op.compile showType (lvl + 1)
      let r ← compileInstructions showType rest lvl
      some (a ++ "\n" ++ r)
/-- The `compile` method of the remaining nodes. -/
def Node.compile (showType : Ty → String) : Node → Nat → Option String
  | .Typed t, lvl => t.compile showType lvl
  | .Block b, lvl => b.compile showType lvl
  | .Assignment variable_ value, lvl =>
      if variable_.type = Ty.ARR_CHR then
        match value.type with
        | none => none
        | some vt =>
            if vt = Ty.ARR_CHR then
              (compileStringSet variable_ value lvl).map (fun s => indent lvl ++ s)
            else do
              let d ← variable_.compile showType lvl
              let v ← value.compile showType lvl
              some (indent lvl ++ d ++ "=" ++ castOpen variable_.type ++ v ++ ")")
      else do
        let d ← variable_.compile showType lvl
        let v ← value.compile showType lvl
        some (indent lvl ++ d ++ "=" ++ castOpen variable_.type ++ v ++ ")")
  | .Declaration variable_, lvl =>
      some (indent lvl ++ "# " ++ showType variable_.type_ ++ " " ++ variable_.id_)
  | .If condition block elseBlock, lvl => do
      let c ← condition.compile showType 0
      let b ← block.compile showType lvl
      match elseBlock with
      | none => some (indent lvl ++ "if " ++ c ++ ":" ++ "\n" ++ b)
      | some eb => do
          let e ← eb.compile showType lvl
          some (indent lvl ++ "if " ++ c ++ ":" ++ "\n" ++ b
            ++ indent lvl ++ "else:" ++ "\n" ++ e)
  | .For var begin_ end_ step block, lvl => do
      let b ← begin_.compile showType 0
      let e ← end_.compile showType 0
      let s ← step.compile showType 0
      let body ← block.compile showType lvl
      some (indent lvl ++ "for " ++ var.id_ ++ " in range(" ++ b ++ "," ++ e ++ "," ++ s
        ++ "):" ++ "\n" ++ body)
  | .While condition block, lvl => do
      let c ← condition.compile showType 0
      let body ← block.compile showType lvl
      some (indent lvl ++ "while " ++ c ++ ":" ++ "\n" ++ body)
  | .EqlOP l r, _ => do
      let a ← l.compile showType 0
      let b ← r.compile showType 0
      some (a ++ "==" ++ b)
  | .SupOP l r, _ => do
      let a ← l.compile showType 0
      let b ← r.compile showType 0
      some (a ++ ">" ++ b)
  | .InfOP l r, _ => do
      let a ← l.compile showType 0
      let b ← r.compile showType 0
      some (a ++ "<" ++ b)
  | .SeqOP l r, _ => do
      let a ← l.compile showType 0
      let b ← r.compile showType 0
      some (a ++ ">=" ++ b)
  | .IeqOP l r, _ => do
      let a ← l.compile showType 0
      let b ← r.compile showType 0
      some (a ++ "<=" ++ b)
  | .OrOP l r, _ => do
      let a ← l.compile showType 0
      let b ← r.compile showType 0
      some (a ++ " or " ++ b)
  | .AndOP l r, _ => do
      let a ← l.compile showType 0
      let b ← r.compile showType 0
      some (a ++ " and " ++ b)
  | .XorOP l r, _ => do
      let a ← l.compile showType 0
      let b ← r.compile showType 0
      some (a ++ " and " ++ b)
  | .NotOP param, _ => do
      let p ← param.compile showType 0
      some ("not(" ++ p ++ ") ")
  | .Print str none, lvl => some (indent lvl ++ "print(" ++ str ++ ",end=\"\")")
  | .Print _ (some content), lvl => do
      let c ← content.compile showType 0
      some (indent lvl ++ "print(" ++ c ++ ",end=\"\")")
  | .Read variable_, lvl => do
      let v ← variable_.compile showType 0
      let t ← variable_.type
      some (indent lvl ++ v ++ readSuffix t)
  | .Return returnExpr, lvl => do
      let r ← returnExpr.compile showType 0
      some (indent lvl ++ "return " ++ r)
end

/-! ## Shapes of statements -/

/-- The constructs that own a body: `If`, `For` and `While`. -/
def Node.isCompound : Node → Bool
  | .If _ _ _ => true
  | .For _ _ _ _ _ => true
  | .While _ _ => true
  | _ => false

/-- The blocks a construct owns: the body of a `For` or `While`, the primary block of an
`If` and its else block when one is attached. -/
def Node.ownedBlocks : Node → List AST.Block
  | .If _ b none => [b]
  | .If _ b (some e) => [b, e]
  | .For _ _ _ _ b => [b]
  | .While _ b => [b]
  | _ => []

/-- `NestedIn b d s`: the statement `s` occurs below the block `b`, enclosed by `d`
constructs (`If`, `For`, `While`) that themselves lie below `b`. -/
inductive NestedIn : Block → Nat → Node → Prop where
  | here (b : Block) (s : Node) : s ∈ b.instructions_ → NestedIn b 0 s
  | inside (b : Block) (c : Node) (inner : Block) (d : Nat) (s : Node) :
      c ∈ b.instructions_ → inner ∈ c.ownedBlocks → NestedIn inner d s →
      NestedIn b (d + 1) s

/-- An `Assignment` takes the array/string branch (the test at line 179). -/
def onSpecialPath (variable_ : VarNode) (value : TypedNode) : Bool :=
  decide (variable_.type = Ty.ARR_CHR) && decide (value.type = some Ty.ARR_CHR)

/-- The destination is written as a reference: it is a `Variable`, an `Array` or an
`ArrayAccess` (not the defining occurrence `ArrayDeclaration`), and its identifier does
not begin with a tab character. -/
def VarNode.isReference : VarNode → Bool
  | .ArrayDeclaration _ _ _ => false
  | v => decide (v.id.data.head? ≠ some '\t')

/-- The statements whose indentation is considered: `Print`, `Return`, `Declaration`, an
`Assignment` on the standard path to a reference, and the constructs `If`, `For`,
`While`. -/
def Node.isLaidOut : Node → Bool
  | .Print _ _ => true
  | .Return _ => true
  | .Declaration _ => true
  | .Assignment v val => !onSpecialPath v val && v.isReference
  | .If _ _ _ => true
  | .For _ _ _ _ _ => true
  | .While _ _ => true
  | _ => false

/-- The expression-level nodes other than `Funcall`: literals, references to a variable
or an array slot, the arithmetic, relational and logical operators, and `NotOP`. -/
def Node.isExpression : Node → Bool
  | .Typed (.Value _ _) => true
  | .Typed (.Var (.Variable _ _)) => true
  | .Typed (.Var (.Array _ _ _)) => true
  | .Typed (.Var (.ArrayAccess _ _ _ _)) => true
  | .Typed (.AddOP _ _ _) => true
  | .Typed (.MnsOP _ _ _) => true
  | .Typed (.TmsOP _ _ _) => true
  | .Typed (.DivOP _ _ _) => true
  | .EqlOP _ _ => true
  | .SupOP _ _ => true
  | .InfOP _ _ => true
  | .SeqOP _ _ => true
  | .IeqOP _ _ => true
  | .OrOP _ _ => true
  | .AndOP _ _ => true
  | .XorOP _ _ => true
  | .NotOP _ => true
  | _ => false

/-- A text after which a new line starts: it is empty or ends with a line terminator. -/
def LineStart (pre : String) : Prop := pre = "" ∨ ∃ p, pre = p ++ "\n"

/-! ## Debug display

`display()` is a non-`const` method writing to `std::cout`. The state it runs in is passed
explicitly: `display node out` is the pair of the node as the call leaves it and the
content of the sink after the call, `out` being the content of the sink before. A method
that calls `display()` on a child it holds by pointer continues with the child as that
call left it, and the next write goes to the sink as that call left it. -/

/-- `Variable::display` on a `Variable` object (the member of a `Declaration` or of a
`For`): writes `id_`. -/
def Variable.display (v : Variable) (out : String) : Variable × String :=
  (v, out ++ v.id_)

/-- The loop of `Function::display` over the parameters, `for (Variable p : params)`:
`display()` runs on a copy of each element, then `, ` is written; the list itself is out
of reach of the loop body. -/
def displayFunParams : List Variable → String → String
  | [], out => out
  | p :: rest, out => displayFunParams rest ((p.display out).2 ++ ", ")

/-- The text inserted by `Value::display`: nothing for a type other than `INT`, `FLT`,
`CHR`. -/
def displayValue (v : type_t) : Ty → String
  | .INT => toString v._int
  | .FLT => v._flt
  | .CHR => "'" ++ String.singleton v._chr ++ "'"
  | _ => ""

mutual
/-- The `display` method of `Variable`, `ArrayDeclaration` and `ArrayAccess` (`Array`
inherits that of `Variable`). -/
def VarNode.display : VarNode → String → VarNode × String
  | .Variable i t, out => (.Variable i t, out ++ i)
  | .Array i size t, out => (.Array i size t, out ++ i)
  | .ArrayDeclaration i size t, out =>
      (.ArrayDeclaration i size t, out ++ i ++ "[" ++ toString size ++ "]")
  | .ArrayAccess i size t index, out =>
      let a := index.display (out ++ i ++ "[")
      (.ArrayAccess i size t a.1, a.2 ++ "]")
/-- The `display` method of the typed nodes. For the arithmetic operators it is the name
followed by `BinaryOperation::display`. -/
def TypedNode.display : TypedNode → String → TypedNode × String
  | .Value v t, out => (.Value v t, out ++ displayValue v t)
  | .Var v, out =>
      let a := v.display out
      (.Var a.1, a.2)
  | .Funcall functionName params t, out =>
      let a := displayParams params (out ++ "Funcall(" ++ functionName ++ ", [")
      (.Funcall functionName a.1 t, a.2 ++ "])" ++ "\n")
  | .AddOP l r t, out =>
      let a := l.display (out ++ "AddOP(")
      let b := r.display (a.2 ++ ", ")
      (.AddOP a.1 b.1 t, b.2 ++ ")")
  | .MnsOP l r t, out =>
      let a := l.display (out ++ "MnsOP(")
      let b := r.display (a.2 ++ ", ")
      (.MnsOP a.1 b.1 t, b.2 ++ ")")
  | .TmsOP l r t, out =>
      let a := l.display (out ++ "TmsOP(")
      let b := r.display (a.2 ++ ", ")
      (.TmsOP a.1 b.1 t, b.2 ++ ")")
  | .DivOP l r t, out =>
      let a := l.display (out ++ "DivOP(")
      let b := r.display (a.2 ++ ", ")
      (.DivOP a.1 b.1 t, b.2 ++ ")")
  | .Function id params block ts, out =>
      let a := block.display
        (displayFunParams params (out ++ "Function(" ++ id ++ ", [") ++ "], ")
      (.Function id params a.1 ts, a.2 ++ ")" ++ "\n")
/-- The loop of `Funcall::display`: each parameter followed by `, `. The pointers of the
list are not reassigned. -/
def displayParams : List (Nat × TypedNode) → String → List (Nat × TypedNode) × String
  | [], out => ([], out)
  | p :: rest, out =>
      let a := p.2.display out
      let b := displayParams rest (a.2 ++ ", ")
      ((p.1, a.1) :: b.1, b.2)
/-- `Block::display`. -/
def Block.display : Block → String → Block × String
  | .mk instructions_, out =>
      let a := displayInstructions instructions_ (out ++ "Block(" ++ "\n")
      (.mk a.1, a.2 ++ ")" ++ "\n")
/-- The loop of `Block::display`. -/
def displayInstructions : List Node → String → List Node × String
  | [], out => ([], out)
  | o :: rest, out =>
      let a := o.display out
      let b := displayInstructions rest a.2
      (a.1 :: b.1, b.2)
/-- The `display` method of the remaining nodes. -/
def Node.display : Node → String → Node × String
  | .Typed t, out =>
      let a := t.display out
      (.Typed a.1, a.2)
  | .Block b, out =>
      let a := b.display out
      (.Block a.1, a.2)
  | .Assignment variable_ value, out =>
      let a := variable_.display (out ++ "Assignment(")
      let b := value.display (a.2 ++ ",")
      (.Assignment a.1 b.1, b.2 ++ ")" ++ "\n")
  | .Declaration variable_, out =>
      let a := variable_.display (out ++ "Declaration(")
      (.Declaration a.1, a.2 ++ ")" ++ "\n")
  | .If condition block none, out =>
      let a := condition.display (out ++ "If(")
      let b := block.display (a.2 ++ ", ")
      (.If a.1 b.1 none, b.2 ++ ")" ++ "\n")
  | .If condition block (some elseBlock), out =>
      let a := condition.display (out ++ "If(")
      let b := block.display (a.2 ++ ", ")
      let c := elseBlock.display (b.2 ++ ", Else(")
      (.If a.1 b.1 (some c.1), c.2 ++ ")" ++ "\n" ++ ")" ++ "\n")
  | .For var begin_ end_ step block, out =>
      let v := var.display (out ++ "For(")
      let a := begin_.display (v.2 ++ ", range(")
      let b := end_.display (a.2 ++ ",")
      let c := step.display (b.2 ++ ",")
      let d := block.display (c.2 ++ "), ")
      (.For v.1 a.1 b.1 c.1 d.1, d.2 ++ ")" ++ "\n")
  | .While condition block, out =>
      let a := condition.display (out ++ "While(")
      let b := block.display (a.2 ++ ", ")
      (.While a.1 b.1, b.2 ++ ")" ++ "\n")
  | .EqlOP l r, out =>
      let a := l.display (out ++ "EqlOP(")
      let b := r.display (a.2 ++ ", ")
      (.EqlOP a.1 b.1, b.2 ++ ")")
  | .SupOP l r, out =>
      let a := l.display (out ++ "SupOP(")
      let b := r.display (a.2 ++ ", ")
      (.SupOP a.1 b.1, b.2 ++ ")")
  | .InfOP l r, out =>
      let a := l.display (out ++ "InfOP(")
      let b := r.display (a.2 ++ ", ")
      (.InfOP a.1 b.1, b.2 ++ ")")
  | .SeqOP l r, out =>
      let a := l.display (out ++ "SeqOP(")
      let b := r.display (a.2 ++ ", ")
      (.SeqOP a.1 b.1, b.2 ++ ")")
  | .IeqOP l r, out =>
      let a := l.display (out ++ "IeqOP(")
      let b := r.display (a.2 ++ ", ")
      (.IeqOP a.1 b.1, b.2 ++ ")")
  | .OrOP l r, out =>
      let a := l.display (out ++ "OrOP(")
      let b := r.display (a.2 ++ ", ")
      (.OrOP a.1 b.1, b.2 ++ ")")
  | .AndOP l r, out =>
      let a := l.display (out ++ "AndOP(")
      let b := r.display (a.2 ++ ", ")
      (.AndOP a.1 b.1, b.2 ++ ")")
  | .XorOP l r, out =>
      let a := l.display (out ++ "XorOP(")
      let b := r.display (a.2 ++ ", ")
      (.XorOP a.1 b.1, b.2 ++ ")")
  | .NotOP param, out =>
      let a := param.display (out ++ "NotOP(")
      (.NotOP a.1, a.2 ++ ")")
  | .Print str none, out => (.Print str none, out ++ "Print(" ++ str ++ ");" ++ "\n")
  | .Print str (some content), out =>
      let a := content.display (out ++ "Print(")
      (.Print str (some a.1), a.2 ++ ");" ++ "\n")
  | .Read variable_, out =>
      let a := variable_.display (out ++ "Read(")
      (.Read a.1, a.2 ++ ")" ++ "\n")
  | .Return returnExpr, out =>
      let a := returnExpr.display (out ++ "Return(")
      (.Return a.1, a.2 ++ ")")
end

/-! ## Reading target literals -/

/-- The value of a decimal digit. -/
def digitValue (c : Char) : Nat := c.toNat - 48

/-- Reading a non-empty sequence of decimal digits. -/
def readDigits (cs : List Char) : Option Nat :=
  if cs ≠ [] ∧ cs.all Char.isDigit = true then
    some (cs.foldl (fun a c => 10 * a + digitValue c) 0)
  else none

/-- Reading a text as an integer literal of the target: decimal digits, after an
optional minus sign. -/
def readIntLiteral (s : String) : Option Int :=
  match s.data with
  | '-' :: cs => (readDigits cs).map (fun k => -(k : Int))
  | cs => (readDigits cs).map (fun k => (k : Int))

/-- The character an escape sequence of the target denotes, for the one-letter
escapes. -/
def readEscape (e : Char) : Option Char :=
  if e = '\\' then some '\\'
  else if e = '\'' then some '\''
  else if e = '"' then some '"'
  else if e = 'n' then some '\n'
  else if e = 'r' then some '\r'
  else if e = 't' then some '\t'
  else none

/-- Reading a text as a single-quoted literal of the target that denotes a one-character
string: between the quotes stands either one character other than the quote, the
backslash and the line terminators, or an escape sequence. -/
def readCharLiteral (s : String) : Option Char :=
  match s.data with
  | ['\'', '\\', e, '\''] => readEscape e
  | ['\'', c, '\''] =>
      if c = '\'' ∨ c = '\\' ∨ c = '\n' ∨ c = '\r' then none else some c
  | _ => none

/-! ## Arithmetic trees -/

/-- A way of building an expression with the constructors of the arithmetic nodes: the
leaves are given nodes, every inner node is one constructor call. -/
inductive ArithTree where
  | leaf (t : TypedNode)
  | add (l r : ArithTree)
  | mns (l r : ArithTree)
  | tms (l r : ArithTree)
  | div (l r : ArithTree)

/-- The node obtained by running the constructor calls, bottom-up. -/
def ArithTree.build : ArithTree → Option TypedNode
  | .leaf t => some t
  | .add l r => do
      let a ← l.build
      let b ← r.build
      newAddOP a b
  | .mns l r => do
      let a ← l.build
      let b ← r.build
      newMnsOP a b
  | .tms l r => do
      let a ← l.build
      let b ← r.build
      newTmsOP a b
  | .div l r => do
      let a ← l.build
      let b ← r.build
      newDivOP a b

/-- The leaves of an arithmetic tree, left to right. -/
def ArithTree.leaves : ArithTree → List TypedNode
  | .leaf t => [t]
  | .add l r => l.leaves ++ r.leaves
  | .mns l r => l.leaves ++ r.leaves
  | .tms l r => l.leaves ++ r.leaves
  | .div l r => l.leaves ++ r.leaves

/-- A stream insertion for `Type`, used where the emission is evaluated on concrete
trees: the name of the enumerator. -/
def showTypeName : Ty → String
  | .INT => "INT"
  | .FLT => "FLT"
  | .CHR => "CHR"
  | .ARR_CHR => "ARR_CHR"

/-! ## Promotion -/

/-- C1: `selectType` returns Integer if and only if both operand types are Integer, and
returns Float for every other pair; this holds for every pair of types, in particular
for the pairs drawn from Integer and Float. -/
theorem selectType_INT_iff (left right : Ty) :
    (selectType left right = Ty.INT ↔ left = Ty.INT ∧ right = Ty.INT) ∧
    (¬ (left = Ty.INT ∧ right = Ty.INT) → selectType left right = Ty.FLT) := by
  cases left <;> cases right <;> simp [selectType]

/-- C2: an arithmetic node built by its constructor from operands `l` and `r` whose types
are `tl` and `tr` holds these operands and stores `selectType tl tr` as its type, for
`AddOP`, `MnsOP`, `TmsOP` and `DivOP` alike. -/
theorem arith_ctor_stores_selectType (l r : TypedNode) (tl tr : Ty)
    (hl : l.type = some tl) (hr : r.type = some tr) :
    (newAddOP l r = some (TypedNode.AddOP l r (selectType tl tr)) ∧
     newMnsOP l r = some (TypedNode.MnsOP l r (selectType tl tr)) ∧
     newTmsOP l r = some (TypedNode.TmsOP l r (selectType tl tr)) ∧
     newDivOP l r = some (TypedNode.DivOP l r (selectType tl tr))) ∧
    ((newAddOP l r).bind TypedNode.type = some (selectType tl tr) ∧
     (newMnsOP l r).bind TypedNode.type = some (selectType tl tr) ∧
     (newTmsOP l r).bind TypedNode.type = some (selectType tl tr) ∧
     (newDivOP l r).bind TypedNode.type = some (selectType tl tr)) := by
  have ha : newAddOP l r = some (TypedNode.AddOP l r (selectType tl tr)) := by
    simp [newAddOP, hl, hr]
  have hm : newMnsOP l r = some (TypedNode.MnsOP l r (selectType tl tr)) := by
    simp [newMnsOP, hl, hr]
  have ht : newTmsOP l r = some (TypedNode.TmsOP l r (selectType tl tr)) := by
    simp [newTmsOP, hl, hr]
  have hd : newDivOP l r = some (TypedNode.DivOP l r (selectType tl tr)) := by
    simp [newDivOP, hl, hr]
  refine ⟨⟨ha, hm, ht, hd⟩, ?_, ?_, ?_, ?_⟩
  · rw [ha]; rfl
  · rw [hm]; rfl
  · rw [ht]; rfl
  · rw [hd]; rfl

/-- Witness of C2: an Integer literal added to, subtracted from, multiplied with or
divided by a Float literal. -/
theorem arith_ctor_stores_selectType_witness :
    ((newAddOP (TypedNode.Value { _int := 1 } Ty.INT) (TypedNode.Value { _flt := "2.5" } Ty.FLT)
        = some (TypedNode.AddOP (TypedNode.Value { _int := 1 } Ty.INT)
            (TypedNode.Value { _flt := "2.5" } Ty.FLT) (selectType Ty.INT Ty.FLT)) ∧
      newMnsOP (TypedNode.Value { _int := 1 } Ty.INT) (TypedNode.Value { _flt := "2.5" } Ty.FLT)
        = some (TypedNode.MnsOP (TypedNode.Value { _int := 1 } Ty.INT)
            (TypedNode.Value { _flt := "2.5" } Ty.FLT) (selectType Ty.INT Ty.FLT)) ∧
      newTmsOP (TypedNode.Value { _int := 1 } Ty.INT) (TypedNode.Value { _flt := "2.5" } Ty.FLT)
        = some (TypedNode.TmsOP (TypedNode.Value { _int := 1 } Ty.INT)
            (TypedNode.Value { _flt := "2.5" } Ty.FLT) (selectType Ty.INT Ty.FLT)) ∧
      newDivOP (TypedNode.Value { _int := 1 } Ty.INT) (TypedNode.Value { _flt := "2.5" } Ty.FLT)
        = some (TypedNode.DivOP (TypedNode.Value { _int := 1 } Ty.INT)
            (TypedNode.Value { _flt := "2.5" } Ty.FLT) (selectType Ty.INT Ty.FLT))) ∧
     ((newAddOP (TypedNode.Value { _int := 1 } Ty.INT)
        (TypedNode.Value { _flt := "2.5" } Ty.FLT)).bind TypedNode.type
          = some (selectType Ty.INT Ty.FLT) ∧
      (newMnsOP (TypedNode.Value { _int := 1 } Ty.INT)
        (TypedNode.Value { _flt := "2.5" } Ty.FLT)).bind TypedNode.type
          = some (selectType Ty.INT Ty.FLT) ∧
      (newTmsOP (TypedNode.Value { _int := 1 } Ty.INT)
        (TypedNode.Value { _flt := "2.5" } Ty.FLT)).bind TypedNode.type
          = some (selectType Ty.INT Ty.FLT) ∧
      (newDivOP (TypedNode.Value { _int := 1 } Ty.INT)
        (TypedNode.Value { _flt := "2.5" } Ty.FLT)).bind TypedNode.type
          = some (selectType Ty.INT Ty.FLT))) ∧
    selectType Ty.INT Ty.FLT = Ty.FLT :=
  ⟨arith_ctor_stores_selectType (TypedNode.Value { _int := 1 } Ty.INT)
      (TypedNode.Value { _flt := "2.5" } Ty.FLT) Ty.INT Ty.FLT rfl rfl, by decide⟩

/-- Counterexample to C3: the constructors accept a Character operand. Adding the
character literal `x` to the integer literal `1` is not rejected; it yields a node, and
that node carries the type Float. The same holds for a CharacterArray operand under
`DivOP`. -/
theorem arith_ctor_rejects_counterexample :
    (TypedNode.Value { _chr := 'x' } Ty.CHR).type = some Ty.CHR ∧
    selectType Ty.CHR Ty.INT = Ty.FLT ∧
    newAddOP (TypedNode.Value { _chr := 'x' } Ty.CHR) (TypedNode.Value { _int := 1 } Ty.INT)
      = some (TypedNode.AddOP (TypedNode.Value { _chr := 'x' } Ty.CHR)
          (TypedNode.Value { _int := 1 } Ty.INT) Ty.FLT) ∧
    newAddOP (TypedNode.Value { _chr := 'x' } Ty.CHR) (TypedNode.Value { _int := 1 } Ty.INT)
      ≠ none ∧
    newDivOP (TypedNode.Value { _int := 1 } Ty.INT)
        (TypedNode.Value { _str := "\"ab\"" } Ty.ARR_CHR) ≠ none := by
  simp [newAddOP, newDivOP, TypedNode.type, selectType]

/-- C3 (amended): there is no rejection. For operands whose types are `tl` and `tr`, at
least one of them Character or CharacterArray, `selectType` returns Float and each of the
four constructors yields a node, which stores Float. -/
theorem arith_ctor_char_operand_yields_FLT (l r : TypedNode) (tl tr : Ty)
    (hl : l.type = some tl) (hr : r.type = some tr)
    (hc : tl = Ty.CHR ∨ tl = Ty.ARR_CHR ∨ tr = Ty.CHR ∨ tr = Ty.ARR_CHR) :
    selectType tl tr = Ty.FLT ∧
    newAddOP l r = some (TypedNode.AddOP l r Ty.FLT) ∧
    newMnsOP l r = some (TypedNode.MnsOP l r Ty.FLT) ∧
    newTmsOP l r = some (TypedNode.TmsOP l r Ty.FLT) ∧
    newDivOP l r = some (TypedNode.DivOP l r Ty.FLT) := by
  have hs : selectType tl tr = Ty.FLT := by
    cases tl <;> cases tr <;> simp_all [selectType]
  simp [newAddOP, newMnsOP, newTmsOP, newDivOP, hl, hr, hs]

/-- Witness of C3 (amended): a CharacterArray variable and an Integer literal. -/
theorem arith_ctor_char_operand_yields_FLT_witness :
    selectType Ty.ARR_CHR Ty.INT = Ty.FLT ∧
    newAddOP (TypedNode.Var (VarNode.Variable "s" Ty.ARR_CHR))
        (TypedNode.Value { _int := 1 } Ty.INT)
      = some (TypedNode.AddOP (TypedNode.Var (VarNode.Variable "s" Ty.ARR_CHR))
          (TypedNode.Value { _int := 1 } Ty.INT) Ty.FLT) ∧
    newMnsOP (TypedNode.Var (VarNode.Variable "s" Ty.ARR_CHR))
        (TypedNode.Value { _int := 1 } Ty.INT)
      = some (TypedNode.MnsOP (TypedNode.Var (VarNode.Variable "s" Ty.ARR_CHR))
          (TypedNode.Value { _int := 1 } Ty.INT) Ty.FLT) ∧
    newTmsOP (TypedNode.Var (VarNode.Variable "s" Ty.ARR_CHR))
        (TypedNode.Value { _int := 1 } Ty.INT)
      = some (TypedNode.TmsOP (TypedNode.Var (VarNode.Variable "s" Ty.ARR_CHR))
          (TypedNode.Value { _int := 1 } Ty.INT) Ty.FLT) ∧
    newDivOP (TypedNode.Var (VarNode.Variable "s" Ty.ARR_CHR))
        (TypedNode.Value { _int := 1 } Ty.INT)
      = some (TypedNode.DivOP (TypedNode.Var (VarNode.Variable "s" Ty.ARR_CHR))
          (TypedNode.Value { _int := 1 } Ty.INT) Ty.FLT) :=
  arith_ctor_char_operand_yields_FLT (TypedNode.Var (VarNode.Variable "s" Ty.ARR_CHR))
    (TypedNode.Value { _int := 1 } Ty.INT) Ty.ARR_CHR Ty.INT rfl rfl (Or.inr (Or.inl rfl))


/-! ## Unfolding of `compile` -/

theorem compile_Assignment (showType : Ty → String) (v : VarNode) (val : TypedNode)
    (lvl : Nat) :
    (Node.Assignment v val).compile showType lvl
      = if v.type = Ty.ARR_CHR then
        match val.type with
        | none => none
        | some vt =>
            if vt = Ty.ARR_CHR then
              (compileStringSet v val lvl).map (fun s => indent lvl ++ s)
            else
              (v.compile showType lvl).bind (fun d => (val.compile showType lvl).bind (fun x =>
                some (indent lvl ++ d ++ "=" ++ castOpen v.type ++ x ++ ")")))
      else
        (v.compile showType lvl).bind (fun d => (val.compile showType lvl).bind (fun x =>
          some (indent lvl ++ d ++ "=" ++ castOpen v.type ++ x ++ ")"))) := rfl

theorem compile_Declaration (showType : Ty → String) (v : Variable) (lvl : Nat) :
    (Node.Declaration v).compile showType lvl
      = some (indent lvl ++ "# " ++ showType v.type_ ++ " " ++ v.id_) := rfl

theorem compile_If_none (showType : Ty → String) (c : Node) (b : Block) (lvl : Nat) :
    (Node.If c b none).compile showType lvl
      = (c.compile showType 0).bind (fun co => (b.compile showType lvl).bind (fun bo =>
          some (indent lvl ++ "if " ++ co ++ ":" ++ "\n" ++ bo))) := rfl

theorem compile_If_some (showType : Ty → String) (c : Node) (b e : Block) (lvl : Nat) :
    (Node.If c b (some e)).compile showType lvl
      = (c.compile showType 0).bind (fun co => (b.compile showType lvl).bind (fun bo =>
          (e.compile showType lvl).bind (fun eo =>
            some (indent lvl ++ "if " ++ co ++ ":" ++ "\n" ++ bo
              ++ indent lvl ++ "else:" ++ "\n" ++ eo)))) := rfl

theorem compile_For (showType : Ty → String) (v : Variable) (b e s : Node) (body : Block)
    (lvl : Nat) :
    (Node.For v b e s body).compile showType lvl
      = (b.compile showType 0).bind (fun bo => (e.compile showType 0).bind (fun eo =>
          (s.compile showType 0).bind (fun so => (body.compile showType lvl).bind (fun bd =>
            some (indent lvl ++ "for " ++ v.id_ ++ " in range(" ++ bo ++ "," ++ eo ++ ","
              ++ so ++ "):" ++ "\n" ++ bd))))) := rfl

theorem compile_While (showType : Ty → String) (c : Node) (body : Block) (lvl : Nat) :
    (Node.While c body).compile showType lvl
      = (c.compile showType 0).bind (fun co => (body.compile showType lvl).bind (fun bd =>
          some (indent lvl ++ "while " ++ co ++ ":" ++ "\n" ++ bd))) := rfl

theorem compile_Print_none (showType : Ty → String) (str : String) (lvl : Nat) :
    (Node.Print str none).compile showType lvl
      = some (indent lvl ++ "print(" ++ str ++ ",end=\"\")") := rfl

theorem compile_Print_some (showType : Ty → String) (str : String) (c : Node) (lvl : Nat) :
    (Node.Print str (some c)).compile showType lvl
      = (c.compile showType 0).bind (fun co =>
          some (indent lvl ++ "print(" ++ co ++ ",end=\"\")")) := rfl

theorem compile_Return (showType : Ty → String) (e : Node) (lvl : Nat) :
    (Node.Return e).compile showType lvl
      = (e.compile showType 0).bind (fun r => some (indent lvl ++ "return " ++ r)) := rfl

theorem compile_Function (showType : Ty → String) (id : String) (params : List Variable)
    (block : Block) (types : List Ty) (lvl : Nat) :
    (TypedNode.Function id params block types).compile showType lvl
      = (block.compile showType 0).bind (fun body =>
          some ("def " ++ id ++ "(" ++ compileFunParams params ++ "):" ++ "\n" ++ body)) := rfl

theorem compile_Block_mk (showType : Ty → String) (l : List Node) (lvl : Nat) :
    (Block.mk l).compile showType lvl = compileInstructions showType l lvl := rfl

theorem compileInstructions_nil (showType : Ty → String) (lvl : Nat) :
    compileInstructions showType [] lvl = some "" := rfl

theorem compileInstructions_cons (showType : Ty → String) (op : Node) (rest : List Node)
    (lvl : Nat) :
    compileInstructions showType (op :: rest) lvl
      = (op.compile showType (lvl + 1)).bind (fun a =>
          (compileInstructions showType rest lvl).bind (fun r => some (a ++ "\n" ++ r))) := rfl

theorem compile_Variable (showType : Ty → String) (i : String) (t : Ty) (lvl : Nat) :
    (VarNode.Variable i t).compile showType lvl = some i := rfl

theorem compile_Array (showType : Ty → String) (i : String) (s : Int) (t : Ty) (lvl : Nat) :
    (VarNode.Array i s t).compile showType lvl = some i := rfl

theorem compile_ArrayDeclaration (showType : Ty → String) (i : String) (s : Int) (t : Ty)
    (lvl : Nat) :
    (VarNode.ArrayDeclaration i s t).compile showType lvl
      = some (indent lvl ++ i ++ "=[0 for _ in range(" ++ toString s ++ ")]") := rfl

theorem compile_ArrayAccess (showType : Ty → String) (i : String) (s : Int) (t : Ty)
    (index : Node) (lvl : Nat) :
    (VarNode.ArrayAccess i s t index).compile showType lvl
      = (index.compile showType 0).bind (fun x => some (i ++ "[" ++ x ++ "]")) := rfl

/-! ## The array/string branch of `Assignment::compile` -/

/-- The bound written in the copy loop for a quoted literal of `n` content characters and
an array of size `s`, both within the range of `int` and `s` at least 1. -/
theorem copyBound_quoted (s n : Nat) (content : String) (hs : 1 ≤ s) (hs2 : s < 2 ^ 31)
    (hn : content.length = n) (hn2 : n + 2 < 2 ^ 31) :
    copyBound (s : Int) ("\"" ++ content ++ "\"") = min (s - 1) n := by
  have hq : ("\"" : String).length = 1 := rfl
  have hlen : ("\"" ++ content ++ "\"").length = n + 2 := by
    rw [String.length_append, String.length_append, hn, hq]; omega
  have hs3 : s < 2147483648 := by simpa using hs2
  have hn3 : n + 2 < 2147483648 := by simpa using hn2
  unfold copyBound copySize
  rw [hlen]
  have e1 : toInt32 ((n + 2 : Nat) : Int) = (n : Int) + 2 := by
    unfold toInt32; omega
  have e2 : toInt32 ((n : Int) + 2 - 2 + 1) = (n : Int) + 1 := by
    unfold toInt32; omega
  have e3 : toUInt32 (min (s : Int) ((n : Int) + 1)) = min s (n + 1) := by
    unfold toUInt32; omega
  rw [e1, e2, e3]
  unfold toUInt32; omega

/-- The text of the array/string branch, for a destination that is an `Array` object and
a source that is a `Value`, both of type `ARR_CHR`. -/
theorem assignment_stringset (showType : Ty → String) (variable_ : VarNode) (v : type_t)
    (a : String) (s : Int) (lvl : Nat)
    (ht : variable_.type = Ty.ARR_CHR) (ha : variable_.asArray = some (a, s)) :
    (Node.Assignment variable_ (TypedNode.Value v Ty.ARR_CHR)).compile showType lvl
      = some (indent lvl ++ a ++ "=[0 for _ in range(" ++ toString s ++ ")]" ++ "\n"
          ++ indent lvl ++ "for _ZZ_TRANSPILER_STRINGSET_INDEX in range("
          ++ toString (copyBound s v._str) ++ "):" ++ "\n"
          ++ indent (lvl + 1) ++ a ++ "[_ZZ_TRANSPILER_STRINGSET_INDEX]="
          ++ v._str ++ "[_ZZ_TRANSPILER_STRINGSET_INDEX]") := by
  have hid : variable_.id = a := by
    cases variable_ <;> simp_all [VarNode.asArray, VarNode.id]
  rw [compile_Assignment, if_pos ht]
  simp only [TypedNode.type, if_true, compileStringSet, TypedNode.asValue, ha, hid,
    Option.bind_eq_bind, Option.some_bind, Option.map_some', String.append_assoc]

/-- Counterexample to C4: for an array of size 1 and the literal `"abc"` (3 content
characters) the loop header is `range(0)`, whereas `min(1, 3) = 1`. -/
theorem copy_bound_is_min_counterexample :
    (Node.Assignment (VarNode.Array "s" 1 Ty.ARR_CHR)
        (TypedNode.Value { _str := "\"abc\"" } Ty.ARR_CHR)).compile showTypeName 0
      = some ("s=[0 for _ in range(1)]\n"
          ++ "for _ZZ_TRANSPILER_STRINGSET_INDEX in range(0):\n"
          ++ "\ts[_ZZ_TRANSPILER_STRINGSET_INDEX]=\"abc\"[_ZZ_TRANSPILER_STRINGSET_INDEX]") ∧
    copyBound 1 "\"abc\"" = 0 ∧
    copyBound 1 "\"abc\"" ≠ min 1 3 := by
  refine ⟨by rfl, by decide, by decide⟩

/-- C4 (amended): on the array/string branch, for a declared size `s` with
`1 ≤ s ≤ INT_MAX` and a quoted literal with `n` content characters, the bound written in
`range(k)` is `k = min(s, n + 1) - 1 = min(s - 1, n)`. It equals `min(s, n)` when `n < s`
and is one less than `min(s, n)` when `s ≤ n`. -/
theorem copy_bound_emitted (showType : Ty → String) (variable_ : VarNode) (v : type_t)
    (a content : String) (s n lvl : Nat)
    (ht : variable_.type = Ty.ARR_CHR) (ha : variable_.asArray = some (a, (s : Int)))
    (hv : v._str = "\"" ++ content ++ "\"") (hn : content.length = n)
    (hs : 1 ≤ s) (hs2 : s < 2 ^ 31) (hn2 : n + 2 < 2 ^ 31) :
    (Node.Assignment variable_ (TypedNode.Value v Ty.ARR_CHR)).compile showType lvl
      = some (indent lvl ++ a ++ "=[0 for _ in range(" ++ toString (s : Int) ++ ")]" ++ "\n"
          ++ indent lvl ++ "for _ZZ_TRANSPILER_STRINGSET_INDEX in range("
          ++ toString (min (s - 1) n) ++ "):" ++ "\n"
          ++ indent (lvl + 1) ++ a ++ "[_ZZ_TRANSPILER_STRINGSET_INDEX]="
          ++ v._str ++ "[_ZZ_TRANSPILER_STRINGSET_INDEX]") ∧
    copyBound (s : Int) v._str = min (s - 1) n ∧
    (n < s → copyBound (s : Int) v._str = min s n) ∧
    (s ≤ n → copyBound (s : Int) v._str + 1 = min s n) := by
  have hb : copyBound (s : Int) v._str = min (s - 1) n := by
    rw [hv]; exact copyBound_quoted s n content hs hs2 hn hn2
  refine ⟨?_, hb, ?_, ?_⟩
  · rw [assignment_stringset showType variable_ v a s lvl ht ha, hb]
  · intro h; rw [hb]; omega
  · intro h; rw [hb]; omega

/-- Witness of C4 (amended): size 2 and the literal `"abc"` give `range(1)`; the bound is
one less than `min(2, 3)`. -/
theorem copy_bound_emitted_witness :
    (Node.Assignment (VarNode.ArrayDeclaration "s" (2 : Nat) Ty.ARR_CHR)
        (TypedNode.Value { _str := "\"abc\"" } Ty.ARR_CHR)).compile showTypeName 0
      = some (indent 0 ++ "s" ++ "=[0 for _ in range(" ++ toString ((2 : Nat) : Int) ++ ")]"
          ++ "\n"
          ++ indent 0 ++ "for _ZZ_TRANSPILER_STRINGSET_INDEX in range("
          ++ toString (min (2 - 1) 3) ++ "):" ++ "\n"
          ++ indent (0 + 1) ++ "s" ++ "[_ZZ_TRANSPILER_STRINGSET_INDEX]="
          ++ "\"abc\"" ++ "[_ZZ_TRANSPILER_STRINGSET_INDEX]") ∧
    copyBound ((2 : Nat) : Int) "\"abc\"" = min (2 - 1) 3 ∧
    (3 < 2 → copyBound ((2 : Nat) : Int) "\"abc\"" = min 2 3) ∧
    (2 ≤ 3 → copyBound ((2 : Nat) : Int) "\"abc\"" + 1 = min 2 3) :=
  copy_bound_emitted showTypeName (VarNode.ArrayDeclaration "s" (2 : Nat) Ty.ARR_CHR)
    { _str := "\"abc\"" } "s" "abc" 2 3 0 rfl rfl rfl (by decide) (by decide) (by decide)
    (by decide)

/-- C5: an `Assignment` whose destination is an `Array` object `a` of size `s` and type
CharacterArray and whose source is a CharacterArray literal `lit` emits, at indent `n`:
`n` tabs, the reset `a=[0 for _ in range(s)]`, a line terminator, `n` tabs, the loop
header `for _ZZ_TRANSPILER_STRINGSET_INDEX in range(k):`, a line terminator, `n + 1` tabs
and the slot assignment. The reset comes first. -/
theorem stringset_emission (showType : Ty → String) (variable_ : VarNode) (v : type_t)
    (a : String) (s : Int) (n : Nat)
    (ht : variable_.type = Ty.ARR_CHR) (ha : variable_.asArray = some (a, s)) :
    ∃ k : Nat, k = copyBound s v._str ∧
    (Node.Assignment variable_ (TypedNode.Value v Ty.ARR_CHR)).compile showType n
      = some (indent n ++ (a ++ "=[0 for _ in range(" ++ toString s ++ ")]") ++ "\n"
          ++ indent n
          ++ ("for _ZZ_TRANSPILER_STRINGSET_INDEX in range(" ++ toString k ++ "):") ++ "\n"
          ++ indent (n + 1)
          ++ (a ++ "[_ZZ_TRANSPILER_STRINGSET_INDEX]=" ++ v._str
              ++ "[_ZZ_TRANSPILER_STRINGSET_INDEX]")) := by
  refine ⟨copyBound s v._str, rfl, ?_⟩
  rw [assignment_stringset showType variable_ v a s n ht ha]
  simp [String.append_assoc]

/-- Witness of C5: the array `s` of size 5 and the literal `"ab"` give a reset to 5
zero-filled slots followed by a loop over `range(2)`. -/
theorem stringset_emission_witness :
    (∃ k : Nat, k = copyBound 5 "\"ab\"" ∧
      (Node.Assignment (VarNode.ArrayDeclaration "s" 5 Ty.ARR_CHR)
          (TypedNode.Value { _str := "\"ab\"" } Ty.ARR_CHR)).compile showTypeName 0
        = some (indent 0 ++ ("s" ++ "=[0 for _ in range(" ++ toString (5 : Int) ++ ")]") ++ "\n"
            ++ indent 0
            ++ ("for _ZZ_TRANSPILER_STRINGSET_INDEX in range(" ++ toString k ++ "):") ++ "\n"
            ++ indent (0 + 1)
            ++ ("s" ++ "[_ZZ_TRANSPILER_STRINGSET_INDEX]=" ++ "\"ab\""
                ++ "[_ZZ_TRANSPILER_STRINGSET_INDEX]"))) ∧
    copyBound 5 "\"ab\"" = 2 ∧
    (Node.Assignment (VarNode.ArrayDeclaration "s" 5 Ty.ARR_CHR)
        (TypedNode.Value { _str := "\"ab\"" } Ty.ARR_CHR)).compile showTypeName 0
      = some ("s=[0 for _ in range(5)]\n"
          ++ "for _ZZ_TRANSPILER_STRINGSET_INDEX in range(2):\n"
          ++ "\ts[_ZZ_TRANSPILER_STRINGSET_INDEX]=\"ab\"[_ZZ_TRANSPILER_STRINGSET_INDEX]") :=
  ⟨stringset_emission showTypeName (VarNode.ArrayDeclaration "s" 5 Ty.ARR_CHR)
      { _str := "\"ab\"" } "s" 5 0 rfl rfl, by decide, by rfl⟩

/-- Whenever destination and source both have type `ARR_CHR` and the source is not a
`Value`, the downcast of line 181 yields a null pointer, which line 183 dereferences. -/
theorem assignment_nonliteral_source (showType : Ty → String) (variable_ : VarNode)
    (value : TypedNode) (lvl : Nat) (ht : variable_.type = Ty.ARR_CHR)
    (hv : value.type = some Ty.ARR_CHR) (hc : value.asValue = none) :
    (Node.Assignment variable_ value).compile showType lvl = none := by
  rw [compile_Assignment, if_pos ht, hv]
  simp only [if_true, compileStringSet, hc, Option.bind_eq_bind, Option.none_bind,
    Option.map_none']

/-- C6 (the code at the failing input): assigning the CharacterArray variable `t` to the
CharacterArray array `s` takes the array/string branch, where the failed downcast to
`Value` is dereferenced; nothing like the standard text `s=(t)` is produced. -/
theorem assignment_nonliteral_source_fails :
    (Node.Assignment (VarNode.Array "s" 5 Ty.ARR_CHR)
        (TypedNode.Var (VarNode.Variable "t" Ty.ARR_CHR))).compile showTypeName 0 = none ∧
    (TypedNode.Var (VarNode.Variable "t" Ty.ARR_CHR)).asValue = none ∧
    (Node.Assignment (VarNode.Array "s" 5 Ty.ARR_CHR)
        (TypedNode.Var (VarNode.Variable "t" Ty.ARR_CHR))).compile showTypeName 0
      ≠ some "s=(t)" := by
  refine ⟨by rfl, by rfl, by decide⟩

/-! ## The standard branch of `Assignment::compile` -/

/-- The text of the standard branch: destination and value are both compiled at the
level of the assignment. -/
theorem assignment_standard (showType : Ty → String) (variable_ : VarNode)
    (value : TypedNode) (lvl : Nat) (d v : String)
    (hp : onSpecialPath variable_ value = false) (ht : variable_.type ≠ Ty.ARR_CHR ∨ value.type ≠ none)
    (hd : variable_.compile showType lvl = some d) (hv : value.compile showType lvl = some v) :
    (Node.Assignment variable_ value).compile showType lvl
      = some (indent lvl ++ d ++ "=" ++ castOpen variable_.type ++ v ++ ")") := by
  rw [compile_Assignment]
  by_cases h1 : variable_.type = Ty.ARR_CHR
  · rw [if_pos h1]
    cases h2 : value.type with
    | none => rcases ht with ht | ht
              · exact absurd h1 ht
              · exact absurd h2 ht
    | some vt =>
      have h3 : vt ≠ Ty.ARR_CHR := by
        intro h
        rw [onSpecialPath, h1, h2, h] at hp
        exact absurd hp (by decide)
      simp only [if_neg h3, hd, hv, Option.some_bind]
  · rw [if_neg h1]
    simp only [hd, hv, Option.some_bind]

/-- C7 (the code at the failing input): at indent 1, assigning the call `f()` to the
Integer variable `x` writes the indentation of the assignment a second time, inside the
wrapper, because the value is compiled at the level of the assignment; the value as an
inline fragment is `f()`. -/
theorem assignment_funcall_value_indented :
    (Node.Assignment (VarNode.Variable "x" Ty.INT)
        (TypedNode.Funcall "f" [] Ty.INT)).compile showTypeName 1 = some "\tx=int(\tf())" ∧
    (TypedNode.Funcall "f" [] Ty.INT).compile showTypeName 0 = some "f()" ∧
    (Node.Assignment (VarNode.Variable "x" Ty.INT)
        (TypedNode.Funcall "f" [] Ty.INT)).compile showTypeName 1
      ≠ some ("\t" ++ "x" ++ "=" ++ "int(" ++ "f()" ++ ")") := by
  refine ⟨by rfl, by rfl, by decide⟩

/-! ## `Block::compile` -/

theorem foldl_append_init (l : List String) (a : String) :
    l.foldl (fun r s => r ++ s) a = a ++ l.foldl (fun r s => r ++ s) "" := by
  induction l generalizing a with
  | nil => simp
  | cons b t ih =>
    simp only [List.foldl_cons, String.empty_append]
    rw [ih (a ++ b), ih b, String.append_assoc]

theorem join_cons (a : String) (l : List String) :
    String.join (a :: l) = a ++ String.join l := by
  simp only [String.join, List.foldl_cons, String.empty_append]
  exact foldl_append_init l a

/-- The loop of `Block::compile` over a list of instructions: the emissions of the
instructions at `lvl + 1`, each followed by a line terminator, in list order. -/
theorem compileInstructions_eq (showType : Ty → String) (l : List Node) (lvl : Nat) :
    compileInstructions showType l lvl
      = (List.mapM (fun (s : Node) => s.compile showType (lvl + 1)) l
            : Option (List String)).map
          (fun outs => String.join (outs.map (fun o => o ++ "\n"))) := by
  induction l with
  | nil => rfl
  | cons op rest ih =>
    rw [compileInstructions_cons, ih]
    simp only [List.mapM_cons]
    cases h : op.compile showType (lvl + 1) with
    | none => simp
    | some a =>
      cases h2 : (List.mapM (fun (s : Node) => s.compile showType (lvl + 1)) rest
          : Option (List String)) with
      | none => simp
      | some r => simp [join_cons, String.append_assoc]

/-- C8: `Block.compile` at indent `n` emits the concatenation, in insertion order, of
each statement compiled at `n + 1` followed by one line terminator (and has a result
exactly when every statement has one); an empty Block emits nothing. -/
theorem block_compile_concat (showType : Ty → String) (b : Block) (n : Nat) :
    b.compile showType n
      = (List.mapM (fun (s : Node) => s.compile showType (n + 1)) b.instructions_
            : Option (List String)).map
          (fun outs => String.join (outs.map (fun o => o ++ "\n"))) ∧
    (Block.mk []).compile showType n = some "" := by
  refine ⟨?_, rfl⟩
  cases b with
  | mk l => exact compileInstructions_eq showType l n

/-- What the loop of `Block::compile` writes is empty or ends with a line terminator. -/
theorem compileInstructions_lineStart (showType : Ty → String) (l : List Node) (lvl : Nat)
    (out : String) (h : compileInstructions showType l lvl = some out) : LineStart out := by
  induction l generalizing out with
  | nil =>
    rw [compileInstructions_nil] at h
    exact Or.inl (Option.some.inj h).symm
  | cons op rest ih =>
    rw [compileInstructions_cons] at h
    simp only [Option.bind_eq_some] at h
    obtain ⟨a, _, r, hr, hout⟩ := h
    have hout2 : out = a ++ "\n" ++ r := (Option.some.inj hout).symm
    rcases ih r hr with h0 | ⟨p, hp⟩
    · exact Or.inr ⟨a, by rw [hout2, h0, String.append_empty]⟩
    · exact Or.inr ⟨a ++ "\n" ++ p, by rw [hout2, hp, String.append_assoc, String.append_assoc,
        String.append_assoc]⟩

/-- An instruction of the list is found in what the loop of `Block::compile` writes: at
the start of a line, compiled at `lvl + 1`, and followed by a line terminator. -/
theorem compileInstructions_mem (showType : Ty → String) (l : List Node) (lvl : Nat)
    (out : String) (s : Node) (hs : s ∈ l)
    (h : compileInstructions showType l lvl = some out) :
    ∃ pre o post, s.compile showType (lvl + 1) = some o ∧
      out = pre ++ o ++ "\n" ++ post ∧ LineStart pre := by
  induction l generalizing out with
  | nil => cases hs
  | cons op rest ih =>
    rw [compileInstructions_cons] at h
    simp only [Option.bind_eq_some] at h
    obtain ⟨a, ha, r, hr, hout⟩ := h
    have hout2 : out = a ++ "\n" ++ r := (Option.some.inj hout).symm
    rcases List.mem_cons.1 hs with heq | hmem
    · subst heq
      exact ⟨"", a, r, ha, by rw [hout2, String.empty_append], Or.inl rfl⟩
    · obtain ⟨pre, o, post, ho, hr2, _⟩ := ih r hmem hr
      refine ⟨a ++ "\n" ++ pre, o, post, ho, ?_, ?_⟩
      · rw [hout2, hr2]; simp only [String.append_assoc]
      · rcases compileInstructions_lineStart showType _ _ _ hr with _ | _
        · rcases ‹LineStart pre› with h0 | ⟨p, hp⟩
          · exact Or.inr ⟨a, by rw [h0, String.append_empty]⟩
          · exact Or.inr ⟨a ++ "\n" ++ p, by rw [hp]; simp only [String.append_assoc]⟩
        · rcases ‹LineStart pre› with h0 | ⟨p, hp⟩
          · exact Or.inr ⟨a, by rw [h0, String.append_empty]⟩
          · exact Or.inr ⟨a ++ "\n" ++ p, by rw [hp]; simp only [String.append_assoc]⟩

/-! ## Line terminators after constructs -/

theorem Block.compile_lineStart (showType : Ty → String) (b : Block) (lvl : Nat)
    (out : String) (h : b.compile showType lvl = some out) : LineStart out := by
  cases b with
  | mk l => exact compileInstructions_lineStart showType l lvl out h

theorem nl_append_lineStart (x r : String) (h : LineStart r) :
    ∃ p, x ++ "\n" ++ r = p ++ "\n" := by
  rcases h with h0 | ⟨p, hp⟩
  · exact ⟨x, by rw [h0, String.append_empty]⟩
  · exact ⟨x ++ "\n" ++ p, by rw [hp, String.append_assoc, String.append_assoc,
      String.append_assoc]⟩

/-- The emission of an `If`, `For` or `While` ends with a line terminator: the one after
its header, after its last body statement or after `else:`. -/
theorem compound_ends_with_terminator (showType : Ty → String) (s : Node) (lvl : Nat)
    (o : String) (hk : s.isCompound = true) (h : s.compile showType lvl = some o) :
    ∃ p, o = p ++ "\n" := by
  cases s <;> simp [Node.isCompound] at hk
  case If c b e =>
    cases e with
    | none =>
      rw [compile_If_none] at h
      simp only [Option.bind_eq_some] at h
      obtain ⟨co, _, bo, hb, ho⟩ := h
      have ho2 : o = indent lvl ++ "if " ++ co ++ ":" ++ "\n" ++ bo :=
        (Option.some.inj ho).symm
      rw [ho2]
      exact nl_append_lineStart _ bo (Block.compile_lineStart showType b lvl bo hb)
    | some eb =>
      rw [compile_If_some] at h
      simp only [Option.bind_eq_some] at h
      obtain ⟨co, _, bo, _, eo, he, ho⟩ := h
      have ho2 : o = indent lvl ++ "if " ++ co ++ ":" ++ "\n" ++ bo
          ++ indent lvl ++ "else:" ++ "\n" ++ eo := (Option.some.inj ho).symm
      rw [ho2]
      exact nl_append_lineStart _ eo (Block.compile_lineStart showType eb lvl eo he)
  case For v b e st body =>
    rw [compile_For] at h
    simp only [Option.bind_eq_some] at h
    obtain ⟨bo, _, eo, _, so, _, bd, hbd, ho⟩ := h
    have ho2 : o = indent lvl ++ "for " ++ v.id_ ++ " in range(" ++ bo ++ "," ++ eo ++ ","
        ++ so ++ "):" ++ "\n" ++ bd := (Option.some.inj ho).symm
    rw [ho2]
    exact nl_append_lineStart _ bd (Block.compile_lineStart showType body lvl bd hbd)
  case While c body =>
    rw [compile_While] at h
    simp only [Option.bind_eq_some] at h
    obtain ⟨co, _, bd, hbd, ho⟩ := h
    have ho2 : o = indent lvl ++ "while " ++ co ++ ":" ++ "\n" ++ bd :=
      (Option.some.inj ho).symm
    rw [ho2]
    exact nl_append_lineStart _ bd (Block.compile_lineStart showType body lvl bd hbd)

/-- Counterexample to C9: a Block that owns a `While` whose body holds one `Print`. The
body ends with the terminator of the `Print`, and the Block writes its own terminator
after the `While`: the output ends with two consecutive line terminators. -/
theorem block_single_terminator_counterexample :
    (Block.mk [Node.While (Node.Typed (TypedNode.Var (VarNode.Variable "c" Ty.INT)))
        (Block.mk [Node.Print "\"x\"" none])]).compile showTypeName 0
      = some "\twhile c:\n\t\tprint(\"x\",end=\"\")\n\n" ∧
    ∃ pre post, "\twhile c:\n\t\tprint(\"x\",end=\"\")\n\n" = pre ++ "\n\n" ++ post :=
  ⟨by rfl, "\twhile c:\n\t\tprint(\"x\",end=\"\")", "", by decide⟩

/-- C9 (amended): in the output of `Block.compile` every owned statement is followed by
one line terminator written by the Block; the emission of an owned `If`, `For` or `While`
itself ends with a line terminator, so it is followed by two consecutive ones. -/
theorem block_compound_double_terminator (showType : Ty → String) (b : Block) (lvl : Nat)
    (out : String) (s : Node) (hs : s ∈ b.instructions_) (hk : s.isCompound = true)
    (hc : b.compile showType lvl = some out) :
    ∃ pre o post, s.compile showType (lvl + 1) = some (o ++ "\n") ∧
      out = pre ++ (o ++ "\n") ++ "\n" ++ post := by
  cases b with
  | mk l =>
    obtain ⟨pre, o, post, ho, hout, _⟩ :=
      compileInstructions_mem showType l lvl out s hs hc
    obtain ⟨p, hp⟩ := compound_ends_with_terminator showType s (lvl + 1) o hk ho
    exact ⟨pre, p, post, by rw [← hp]; exact ho, by rw [← hp]; exact hout⟩

/-- Witness of C9 (amended): a Block that owns an `If` with an empty body. -/
theorem block_compound_double_terminator_witness :
    ∃ pre o post,
      (Node.If (Node.Typed (TypedNode.Var (VarNode.Variable "c" Ty.INT))) (Block.mk [])
          none).compile showTypeName (0 + 1) = some (o ++ "\n") ∧
      "\tif c:\n\n" = pre ++ (o ++ "\n") ++ "\n" ++ post :=
  block_compound_double_terminator showTypeName
    (Block.mk [Node.If (Node.Typed (TypedNode.Var (VarNode.Variable "c" Ty.INT)))
      (Block.mk []) none]) 0 "\tif c:\n\n"
    (Node.If (Node.Typed (TypedNode.Var (VarNode.Variable "c" Ty.INT))) (Block.mk []) none)
    (List.mem_singleton.2 rfl) rfl (by rfl)

/-! ## Indentation of nested statements -/

theorem head_append_of_head (a b : String) (c : Char) (ha : a.data.head? = some c) :
    (a ++ b).data.head? = some c := by
  rw [String.data_append]
  cases h : a.data with
  | nil => rw [h] at ha; simp at ha
  | cons x t => rw [h] at ha; simpa using ha

theorem head_append_ne_tab (a b : String) (ha : a.data.head? ≠ some '\t')
    (hb : b.data.head? ≠ some '\t') : (a ++ b).data.head? ≠ some '\t' := by
  rw [String.data_append]
  cases h : a.data with
  | nil => simpa using hb
  | cons x t => rw [h] at ha; simpa using ha

theorem head_keyword_ne_tab (a b : String) (c : Char) (ha : a.data.head? = some c)
    (hc : c ≠ '\t') : (a ++ b).data.head? ≠ some '\t' := by
  rw [head_append_of_head a b c ha]
  intro h
  exact hc (Option.some.inj h)

/-- The reference written for a destination that is a `Variable`, an `Array` or an
`ArrayAccess` does not begin with a tab when its identifier does not. -/
theorem reference_head (showType : Ty → String) (v : VarNode) (lvl : Nat) (d t : String)
    (hr : v.isReference = true) (hd : v.compile showType lvl = some d)
    (ht : t.data.head? ≠ some '\t') : (d ++ t).data.head? ≠ some '\t' := by
  cases v with
  | Variable i ty =>
    simp only [VarNode.isReference, VarNode.id, decide_eq_true_eq] at hr
    rw [compile_Variable] at hd
    rw [← Option.some.inj hd]
    exact head_append_ne_tab _ _ hr ht
  | Array i sz ty =>
    simp only [VarNode.isReference, VarNode.id, decide_eq_true_eq] at hr
    rw [compile_Array] at hd
    rw [← Option.some.inj hd]
    exact head_append_ne_tab _ _ hr ht
  | ArrayDeclaration i sz ty => simp [VarNode.isReference] at hr
  | ArrayAccess i sz ty idx =>
    simp only [VarNode.isReference, VarNode.id, decide_eq_true_eq] at hr
    rw [compile_ArrayAccess] at hd
    simp only [Option.bind_eq_some] at hd
    obtain ⟨x, _, hx⟩ := hd
    rw [← Option.some.inj hx, String.append_assoc, String.append_assoc, String.append_assoc]
    exact head_append_ne_tab _ _ hr (head_keyword_ne_tab _ _ '[' rfl (by decide))

/-- On the standard branch the emission of an `Assignment` is the indentation, the
compiled destination, `=`, the wrapper and the compiled value. -/
theorem assignment_standard_shape (showType : Ty → String) (v : VarNode) (val : TypedNode)
    (lvl : Nat) (o : String) (hp : onSpecialPath v val = false)
    (h : (Node.Assignment v val).compile showType lvl = some o) :
    ∃ d vo, v.compile showType lvl = some d ∧ val.compile showType lvl = some vo ∧
      o = indent lvl ++ d ++ "=" ++ castOpen v.type ++ vo ++ ")" := by
  rw [compile_Assignment] at h
  by_cases h1 : v.type = Ty.ARR_CHR
  · rw [if_pos h1] at h
    cases h2 : val.type with
    | none => rw [h2] at h; exact absurd h (by simp)
    | some vt =>
      rw [h2] at h
      have h3 : vt ≠ Ty.ARR_CHR := by
        intro h4
        rw [onSpecialPath, h1, h2, h4] at hp
        exact absurd hp (by decide)
      simp only [if_neg h3, Option.bind_eq_some] at h
      obtain ⟨d, hd, vo, hvo, ho⟩ := h
      exact ⟨d, vo, hd, hvo, (Option.some.inj ho).symm⟩
  · rw [if_neg h1] at h
    simp only [Option.bind_eq_some] at h
    obtain ⟨d, hd, vo, hvo, ho⟩ := h
    exact ⟨d, vo, hd, hvo, (Option.some.inj ho).symm⟩

/-- The emission of a laid-out statement at level `lvl` is `lvl` tabs followed by a text
that does not begin with a tab. -/
theorem laidOut_begins_with_indent (showType : Ty → String) (s : Node) (lvl : Nat)
    (o : String) (hs : s.isLaidOut = true) (h : s.compile showType lvl = some o) :
    ∃ rest, o = indent lvl ++ rest ∧ rest.data.head? ≠ some '\t' := by
  cases s <;> simp only [Node.isLaidOut, Bool.false_eq_true] at hs
  case Assignment v val =>
    simp only [Bool.and_eq_true, Bool.not_eq_true'] at hs
    obtain ⟨hp, hr⟩ := hs
    obtain ⟨d, vo, hd, _, ho⟩ := assignment_standard_shape showType v val lvl o hp h
    refine ⟨d ++ ("=" ++ castOpen v.type ++ vo ++ ")"), ?_, ?_⟩
    · rw [ho]; simp only [String.append_assoc]
    · refine reference_head showType v lvl d _ hr hd ?_
      rw [String.append_assoc, String.append_assoc]
      exact head_keyword_ne_tab _ _ '=' rfl (by decide)
  case Declaration v =>
    rw [compile_Declaration] at h
    refine ⟨"# " ++ (showType v.type_ ++ " " ++ v.id_), ?_, ?_⟩
    · rw [← Option.some.inj h]; simp only [String.append_assoc]
    · exact head_keyword_ne_tab _ _ '#' rfl (by decide)
  case If c b e =>
    cases e with
    | none =>
      rw [compile_If_none] at h
      simp only [Option.bind_eq_some] at h
      obtain ⟨co, _, bo, _, ho⟩ := h
      refine ⟨"if " ++ (co ++ ":" ++ "\n" ++ bo), ?_, ?_⟩
      · rw [← Option.some.inj ho]; simp only [String.append_assoc]
      · exact head_keyword_ne_tab _ _ 'i' rfl (by decide)
    | some eb =>
      rw [compile_If_some] at h
      simp only [Option.bind_eq_some] at h
      obtain ⟨co, _, bo, _, eo, _, ho⟩ := h
      refine ⟨"if " ++ (co ++ ":" ++ "\n" ++ bo ++ indent lvl ++ "else:" ++ "\n" ++ eo),
        ?_, ?_⟩
      · rw [← Option.some.inj ho]; simp only [String.append_assoc]
      · exact head_keyword_ne_tab _ _ 'i' rfl (by decide)
  case For v b e st body =>
    rw [compile_For] at h
    simp only [Option.bind_eq_some] at h
    obtain ⟨bo, _, eo, _, so, _, bd, _, ho⟩ := h
    refine ⟨"for " ++ (v.id_ ++ " in range(" ++ bo ++ "," ++ eo ++ "," ++ so ++ "):" ++ "\n"
      ++ bd), ?_, ?_⟩
    · rw [← Option.some.inj ho]; simp only [String.append_assoc]
    · exact head_keyword_ne_tab _ _ 'f' rfl (by decide)
  case While c body =>
    rw [compile_While] at h
    simp only [Option.bind_eq_some] at h
    obtain ⟨co, _, bd, _, ho⟩ := h
    refine ⟨"while " ++ (co ++ ":" ++ "\n" ++ bd), ?_, ?_⟩
    · rw [← Option.some.inj ho]; simp only [String.append_assoc]
    · exact head_keyword_ne_tab _ _ 'w' rfl (by decide)
  case Print str content =>
    cases content with
    | none =>
      rw [compile_Print_none] at h
      refine ⟨"print(" ++ (str ++ ",end=\"\")"), ?_, ?_⟩
      · rw [← Option.some.inj h]; simp only [String.append_assoc]
      · exact head_keyword_ne_tab _ _ 'p' rfl (by decide)
    | some cn =>
      rw [compile_Print_some] at h
      simp only [Option.bind_eq_some] at h
      obtain ⟨co, _, ho⟩ := h
      refine ⟨"print(" ++ (co ++ ",end=\"\")"), ?_, ?_⟩
      · rw [← Option.some.inj ho]; simp only [String.append_assoc]
      · exact head_keyword_ne_tab _ _ 'p' rfl (by decide)
  case Return e =>
    rw [compile_Return] at h
    simp only [Option.bind_eq_some] at h
    obtain ⟨ro, _, ho⟩ := h
    refine ⟨"return " ++ ro, ?_, ?_⟩
    · rw [← Option.some.inj ho]; simp only [String.append_assoc]
    · exact head_keyword_ne_tab _ _ 'r' rfl (by decide)

theorem lineStart_nl_append (x pre : String) (h : LineStart pre) :
    LineStart (x ++ "\n" ++ pre) := by
  obtain ⟨p, hp⟩ := nl_append_lineStart x pre h
  exact Or.inr ⟨p, hp⟩

/-- A block owned by a construct is compiled at the level of the construct, and its text
stands in the emission of the construct right after a line terminator. -/
theorem ownedBlock_in_emission (showType : Ty → String) (c : Node) (inner : Block)
    (lvl : Nat) (oc : String) (hi : inner ∈ c.ownedBlocks)
    (h : c.compile showType lvl = some oc) :
    ∃ hd bo tl, inner.compile showType lvl = some bo ∧ oc = hd ++ "\n" ++ bo ++ tl := by
  cases c <;> simp only [Node.ownedBlocks, List.not_mem_nil] at hi
  case If cnd b e =>
    cases e with
    | none =>
      simp only [Node.ownedBlocks, List.mem_singleton] at hi
      subst hi
      rw [compile_If_none] at h
      simp only [Option.bind_eq_some] at h
      obtain ⟨co, _, bo, hb, ho⟩ := h
      refine ⟨indent lvl ++ "if " ++ co ++ ":", bo, "", hb, ?_⟩
      rw [← Option.some.inj ho, String.append_empty]
    | some eb =>
      simp only [Node.ownedBlocks, List.mem_cons, List.mem_singleton, List.not_mem_nil,
        or_false] at hi
      rw [compile_If_some] at h
      simp only [Option.bind_eq_some] at h
      obtain ⟨co, _, bo, hb, eo, he, ho⟩ := h
      rcases hi with hi | hi
      · subst hi
        refine ⟨indent lvl ++ "if " ++ co ++ ":", bo, indent lvl ++ "else:" ++ "\n" ++ eo,
          hb, ?_⟩
        rw [← Option.some.inj ho]; simp only [String.append_assoc]
      · subst hi
        refine ⟨indent lvl ++ "if " ++ co ++ ":" ++ "\n" ++ bo ++ indent lvl ++ "else:",
          eo, "", he, ?_⟩
        rw [← Option.some.inj ho, String.append_empty]
  case For v b e st body =>
    simp only [Node.ownedBlocks, List.mem_singleton] at hi
    subst hi
    rw [compile_For] at h
    simp only [Option.bind_eq_some] at h
    obtain ⟨bo, _, eo, _, so, _, bd, hbd, ho⟩ := h
    refine ⟨indent lvl ++ "for " ++ v.id_ ++ " in range(" ++ bo ++ "," ++ eo ++ "," ++ so
      ++ "):", bd, "", hbd, ?_⟩
    rw [← Option.some.inj ho, String.append_empty]
  case While cnd body =>
    simp only [Node.ownedBlocks, List.mem_singleton] at hi
    subst hi
    rw [compile_While] at h
    simp only [Option.bind_eq_some] at h
    obtain ⟨co, _, bd, hbd, ho⟩ := h
    refine ⟨indent lvl ++ "while " ++ co ++ ":", bd, "", hbd, ?_⟩
    rw [← Option.some.inj ho, String.append_empty]

/-- A statement enclosed by `d` constructs below a block compiled at `lvl` is compiled at
`lvl + 1 + d`, and its emission stands in the output of the block at the start of a
line. -/
theorem nested_in_block (showType : Ty → String) (b : Block) (d : Nat) (s : Node)
    (hn : NestedIn b d s) :
    ∀ (lvl : Nat) (out : String), b.compile showType lvl = some out →
      ∃ pre o post, s.compile showType (lvl + 1 + d) = some o ∧
        out = pre ++ o ++ post ∧ LineStart pre := by
  induction hn with
  | here b s hs =>
    intro lvl out hc
    cases b with
    | mk l =>
      obtain ⟨pre, o, post, ho, hout, hpre⟩ :=
        compileInstructions_mem showType l lvl out s hs hc
      exact ⟨pre, o, "\n" ++ post, ho, by rw [hout]; simp only [String.append_assoc], hpre⟩
  | inside b c inner d s hcm hin _ ih =>
    intro lvl out hc
    cases b with
    | mk l =>
      obtain ⟨pre, oc, post, hoc, hout, hpre⟩ :=
        compileInstructions_mem showType l lvl out c hcm hc
      obtain ⟨hd, bo, tl, hbo, hoc2⟩ :=
        ownedBlock_in_emission showType c inner (lvl + 1) oc hin hoc
      obtain ⟨pre2, o, post2, ho, hbo2, hpre2⟩ := ih (lvl + 1) bo hbo
      refine ⟨pre ++ (hd ++ "\n" ++ pre2), o, post2 ++ tl ++ ("\n" ++ post), ?_, ?_, ?_⟩
      · have : lvl + 1 + (d + 1) = lvl + 1 + 1 + d := by omega
        rw [this]; exact ho
      · rw [hout, hoc2, hbo2]; simp only [String.append_assoc]
      · obtain ⟨p, hp⟩ := nl_append_lineStart hd pre2 hpre2
        exact Or.inr ⟨pre ++ p, by rw [hp, String.append_assoc]⟩

/-- Indentation of the statements other than an `Assignment` to an `ArrayDeclaration`: in
the output of a Function, a statement (a `Print`, `Return`, `Declaration` or standard-path
`Assignment` to a reference, or the header of an `If`, `For` or `While`) enclosed by `d`
constructs of the body is emitted at the start of a line, and its emission is exactly
`d + 1` tabs followed by a text that does not begin with a tab. -/
theorem nested_statement_indent (showType : Ty → String) (id : String)
    (params : List Variable) (body : Block) (types : List Ty) (lvl : Nat) (out : String)
    (d : Nat) (s : Node)
    (hc : (TypedNode.Function id params body types).compile showType lvl = some out)
    (hn : NestedIn body d s) (hs : s.isLaidOut = true) :
    ∃ pre rest post,
      s.compile showType (d + 1) = some (indent (d + 1) ++ rest) ∧
      out = pre ++ "\n" ++ (indent (d + 1) ++ rest) ++ post ∧
      rest.data.head? ≠ some '\t' := by
  rw [compile_Function] at hc
  simp only [Option.bind_eq_some] at hc
  obtain ⟨bo, hbo, hout⟩ := hc
  have hout2 : out = "def " ++ id ++ "(" ++ compileFunParams params ++ "):" ++ "\n" ++ bo :=
    (Option.some.inj hout).symm
  obtain ⟨pre, o, post, ho, hbo2, hpre⟩ := nested_in_block showType body d s hn 0 bo hbo
  have ho' : s.compile showType (d + 1) = some o := by
    have : 0 + 1 + d = d + 1 := by omega
    rw [← this]; exact ho
  obtain ⟨rest, hrest, htab⟩ := laidOut_begins_with_indent showType s (d + 1) o hs ho'
  obtain ⟨p, hp⟩ := nl_append_lineStart
    ("def " ++ id ++ "(" ++ compileFunParams params ++ "):") pre hpre
  refine ⟨p, rest, post, by rw [← hrest]; exact ho', ?_, htab⟩
  rw [hout2, hbo2, ← hrest, ← hp]
  simp only [String.append_assoc]

/-- An instance: in `def f():` a `Print` inside an `If` inside a `While` is enclosed
by 2 constructs and is emitted on a line that begins with 3 tabs. -/
theorem nested_statement_indent_witness :
    ∃ pre rest post,
      (Node.Print "\"x\"" none).compile showTypeName (2 + 1) = some (indent (2 + 1) ++ rest) ∧
      "def f():\n\twhile c:\n\t\tif c:\n\t\t\tprint(\"x\",end=\"\")\n\n\n"
        = pre ++ "\n" ++ (indent (2 + 1) ++ rest) ++ post ∧
      rest.data.head? ≠ some '\t' :=
  nested_statement_indent showTypeName "f" []
    (Block.mk [Node.While (Node.Typed (TypedNode.Var (VarNode.Variable "c" Ty.INT)))
      (Block.mk [Node.If (Node.Typed (TypedNode.Var (VarNode.Variable "c" Ty.INT)))
        (Block.mk [Node.Print "\"x\"" none]) none])])
    [] 0 "def f():\n\twhile c:\n\t\tif c:\n\t\t\tprint(\"x\",end=\"\")\n\n\n" 2
    (Node.Print "\"x\"" none) (by rfl)
    (NestedIn.inside _ _ _ 1 _ (List.mem_singleton.2 rfl) (List.mem_singleton.2 rfl)
      (NestedIn.inside _ _ _ 0 _ (List.mem_singleton.2 rfl) (List.mem_singleton.2 rfl)
        (NestedIn.here _ _ (List.mem_singleton.2 rfl))))
    rfl

/-- On the standard branch an `Assignment` whose destination is an `ArrayDeclaration`
writes its indentation twice: once at line 177 and once more in
`ArrayDeclaration::compile`, which receives the level of the assignment. -/
theorem assignment_arrayDeclaration_indent (showType : Ty → String) (i : String)
    (size : Int) (t : Ty) (value : TypedNode) (lvl : Nat) (v : String)
    (hp : onSpecialPath (VarNode.ArrayDeclaration i size t) value = false)
    (ht : t ≠ Ty.ARR_CHR ∨ value.type ≠ none)
    (hv : value.compile showType lvl = some v) :
    (Node.Assignment (VarNode.ArrayDeclaration i size t) value).compile showType lvl
      = some (indent lvl ++ (indent lvl ++ i ++ "=[0 for _ in range(" ++ toString size ++ ")]")
          ++ "=" ++ castOpen t ++ v ++ ")") :=
  assignment_standard showType (VarNode.ArrayDeclaration i size t) value lvl _ v hp ht
    (compile_ArrayDeclaration showType i size t lvl) hv

/-- C11: an `If` with condition `c` and primary Block `B`, compiled at indent `n`, emits
`n` tabs, `if `, `c` compiled inline, `:`, a line terminator and `B` compiled at `n`.
After `createElse` attached a Block `E` this is followed by `n` tabs, `else:`, a line
terminator and `E` compiled at `n`; without an attached Block nothing follows. -/
theorem if_emission (showType : Ty → String) (c : Node) (B E : Block) (n : Nat)
    (co bo eo : String) (hc : c.compile showType 0 = some co)
    (hb : B.compile showType n = some bo) (he : E.compile showType n = some eo) :
    (newIf c B).compile showType n
      = some (indent n ++ "if " ++ co ++ ":" ++ "\n" ++ bo) ∧
    (createElse (newIf c B) E).compile showType n
      = some ((indent n ++ "if " ++ co ++ ":" ++ "\n" ++ bo)
          ++ (indent n ++ "else:" ++ "\n" ++ eo)) ∧
    ∀ eb : Option Block, ∀ o : String, (Node.If c B eb).compile showType n = some o →
      (o = (indent n ++ "if " ++ co ++ ":" ++ "\n" ++ bo)
            ++ (indent n ++ "else:" ++ "\n" ++ eo)
        ↔ eb.isSome = true ∧ eb.bind (fun x => x.compile showType n) = some eo) := by
  refine ⟨?_, ?_, ?_⟩
  · show (Node.If c B none).compile showType n = _
    rw [compile_If_none, hc, hb]; rfl
  · show (Node.If c B (some E)).compile showType n = _
    rw [compile_If_some, hc, hb, he]
    simp only [Option.some_bind, String.append_assoc]
  · intro eb o ho
    cases eb with
    | none =>
      rw [compile_If_none, hc, hb] at ho
      have ho2 : o = indent n ++ "if " ++ co ++ ":" ++ "\n" ++ bo := (Option.some.inj ho).symm
      constructor
      · intro h
        rw [ho2] at h
        have h2 := congrArg String.length h
        simp only [String.length_append] at h2
        have h3 : ("else:" : String).length = 5 := rfl
        omega
      · intro h; exact absurd h.1 (by simp)
    | some x =>
      rw [compile_If_some, hc, hb] at ho
      simp only [Option.some_bind, Option.bind_eq_some] at ho
      obtain ⟨xo, hx, ho2⟩ := ho
      have ho3 : o = indent n ++ "if " ++ co ++ ":" ++ "\n" ++ bo
          ++ indent n ++ "else:" ++ "\n" ++ xo := (Option.some.inj ho2).symm
      simp only [Option.isSome_some, Option.some_bind, true_and, hx, Option.some.injEq]
      constructor
      · intro h
        rw [ho3] at h
        simp only [String.append_assoc] at h
        have h4 := congrArg String.data h
        simp only [String.data_append, List.append_cancel_left_eq] at h4
        exact String.ext h4
      · intro h; rw [ho3, h]; simp only [String.append_assoc]

/-- Witness of C11: `if c:` with the body `print("x")`, without and with the else Block
`print("y")`, at indent 1. -/
theorem if_emission_witness :
    (newIf (Node.Typed (TypedNode.Var (VarNode.Variable "c" Ty.INT)))
        (Block.mk [Node.Print "\"x\"" none])).compile showTypeName 1
      = some (indent 1 ++ "if " ++ "c" ++ ":" ++ "\n" ++ "\t\tprint(\"x\",end=\"\")\n") ∧
    (createElse (newIf (Node.Typed (TypedNode.Var (VarNode.Variable "c" Ty.INT)))
        (Block.mk [Node.Print "\"x\"" none]))
        (Block.mk [Node.Print "\"y\"" none])).compile showTypeName 1
      = some ((indent 1 ++ "if " ++ "c" ++ ":" ++ "\n" ++ "\t\tprint(\"x\",end=\"\")\n")
          ++ (indent 1 ++ "else:" ++ "\n" ++ "\t\tprint(\"y\",end=\"\")\n")) :=
  ⟨(if_emission showTypeName (Node.Typed (TypedNode.Var (VarNode.Variable "c" Ty.INT)))
      (Block.mk [Node.Print "\"x\"" none]) (Block.mk [Node.Print "\"y\"" none]) 1
      "c" "\t\tprint(\"x\",end=\"\")\n" "\t\tprint(\"y\",end=\"\")\n" rfl rfl rfl).1,
   (if_emission showTypeName (Node.Typed (TypedNode.Var (VarNode.Variable "c" Ty.INT)))
      (Block.mk [Node.Print "\"x\"" none]) (Block.mk [Node.Print "\"y\"" none]) 1
      "c" "\t\tprint(\"x\",end=\"\")\n" "\t\tprint(\"y\",end=\"\")\n" rfl rfl rfl).2.1⟩

/-- C12: a `For` with loop variable `v`, boundary expressions `b`, `e`, `s` and body `B`,
compiled at indent `n`, emits `n` tabs, `for `, `v`, ` in range(`, `b`, `,`, `e`, `,`,
`s` (each compiled inline, with nothing added around them), `):`, a line terminator, and
`B` compiled at `n`. -/
theorem for_emission (showType : Ty → String) (v : Variable) (b e s : Node) (B : Block)
    (n : Nat) (bo eo so body : String) (hb : b.compile showType 0 = some bo)
    (he : e.compile showType 0 = some eo) (hs : s.compile showType 0 = some so)
    (hB : B.compile showType n = some body) :
    (Node.For v b e s B).compile showType n
      = some (indent n ++ "for " ++ v.id_ ++ " in range(" ++ bo ++ "," ++ eo ++ "," ++ so
          ++ "):" ++ "\n" ++ body) := by
  rw [compile_For, hb, he, hs, hB]; rfl

/-- Witness of C12: `For(i, 0, 10, 1, Block[Print(i)])` at indent 0 emits the header
`for i in range(0,10,1):` followed by the `Print` indented by one tab. -/
theorem for_emission_witness :
    (Node.For { id_ := "i", type_ := Ty.INT }
        (Node.Typed (TypedNode.Value { _int := 0 } Ty.INT))
        (Node.Typed (TypedNode.Value { _int := 10 } Ty.INT))
        (Node.Typed (TypedNode.Value { _int := 1 } Ty.INT))
        (Block.mk [Node.Print "" (some (Node.Typed (TypedNode.Var
          (VarNode.Variable "i" Ty.INT))))])).compile showTypeName 0
      = some (indent 0 ++ "for " ++ "i" ++ " in range(" ++ "0" ++ "," ++ "10" ++ "," ++ "1"
          ++ "):" ++ "\n" ++ "\tprint(i,end=\"\")\n") ∧
    indent 0 ++ "for " ++ "i" ++ " in range(" ++ "0" ++ "," ++ "10" ++ "," ++ "1"
          ++ "):" ++ "\n" ++ "\tprint(i,end=\"\")\n"
      = "for i in range(0,10,1):\n\tprint(i,end=\"\")\n" :=
  ⟨for_emission showTypeName { id_ := "i", type_ := Ty.INT }
      (Node.Typed (TypedNode.Value { _int := 0 } Ty.INT))
      (Node.Typed (TypedNode.Value { _int := 10 } Ty.INT))
      (Node.Typed (TypedNode.Value { _int := 1 } Ty.INT))
      (Block.mk [Node.Print "" (some (Node.Typed (TypedNode.Var
        (VarNode.Variable "i" Ty.INT))))]) 0 "0" "10" "1" "\tprint(i,end=\"\")\n"
      rfl rfl rfl rfl, by decide⟩

theorem intercalate_go_eq (acc s : String) (l : List String) :
    String.intercalate.go acc s l = acc ++ l.foldl (fun a v => a ++ s ++ v) "" := by
  induction l generalizing acc with
  | nil => simp [String.intercalate.go]
  | cons x t ih =>
    rw [String.intercalate.go, ih, List.foldl_cons, String.empty_append]
    have h : ∀ (t : List String) (a : String),
        t.foldl (fun a v => a ++ s ++ v) a = a ++ t.foldl (fun a v => a ++ s ++ v) "" := by
      intro t
      induction t with
      | nil => intro a; simp
      | cons y u ihu =>
        intro a
        rw [List.foldl_cons, List.foldl_cons, ihu (a ++ s ++ y), ihu ("" ++ s ++ y)]
        simp only [String.append_assoc, String.empty_append]
    rw [h t (s ++ x)]
    simp only [String.append_assoc]

/-- The parameter list written by `Function::compile` is the list of the identifiers
joined by `,`. -/
theorem compileFunParams_eq (ps : List Variable) :
    compileFunParams ps = String.intercalate "," (ps.map Variable.id_) := by
  cases ps with
  | nil => rfl
  | cons p tmp =>
    rw [compileFunParams, List.map_cons, String.intercalate, intercalate_go_eq, List.foldl_map]

/-- C13: a `Function` with identifier `f`, parameters `p1..pn` and body `B` emits
`def f(`, the parameter identifiers joined by `,` (nothing for an empty list), `):`, a
line terminator and `B` compiled at indent 0. The output depends neither on the types
of the parameters, nor on the return types, nor on the indent argument. -/
theorem function_emission (showType : Ty → String) (f : String) (params : List Variable)
    (B : Block) (types : List Ty) (lvl : Nat) (body : String)
    (hB : B.compile showType 0 = some body) :
    (TypedNode.Function f params B types).compile showType lvl
      = some ("def " ++ f ++ "(" ++ String.intercalate "," (params.map Variable.id_)
          ++ "):" ++ "\n" ++ body) ∧
    (TypedNode.Function f [] B types).compile showType lvl
      = some ("def " ++ f ++ "(" ++ "" ++ "):" ++ "\n" ++ body) ∧
    ∀ (params2 : List Variable) (types2 : List Ty) (lvl2 : Nat),
      params2.map Variable.id_ = params.map Variable.id_ →
      (TypedNode.Function f params2 B types2).compile showType lvl2
        = (TypedNode.Function f params B types).compile showType lvl := by
  refine ⟨?_, ?_, ?_⟩
  · rw [compile_Function, hB, compileFunParams_eq]; rfl
  · rw [compile_Function, hB]; rfl
  · intro params2 types2 lvl2 h
    rw [compile_Function, compile_Function, compileFunParams_eq, compileFunParams_eq, h]

/-- Witness of C13: `def f(a,b):` with the body `print("x")`; the parameter types and the
return type do not show. -/
theorem function_emission_witness :
    (TypedNode.Function "f" [{ id_ := "a", type_ := Ty.INT }, { id_ := "b", type_ := Ty.FLT }]
        (Block.mk [Node.Print "\"x\"" none]) [Ty.CHR]).compile showTypeName 3
      = some ("def " ++ "f" ++ "(" ++ String.intercalate ","
          (List.map Variable.id_ [{ id_ := "a", type_ := Ty.INT }, { id_ := "b", type_ := Ty.FLT }])
          ++ "):" ++ "\n" ++ "\tprint(\"x\",end=\"\")\n") ∧
    "def " ++ "f" ++ "(" ++ String.intercalate ","
          (List.map Variable.id_ [{ id_ := "a", type_ := Ty.INT }, { id_ := "b", type_ := Ty.FLT }])
          ++ "):" ++ "\n" ++ "\tprint(\"x\",end=\"\")\n"
      = "def f(a,b):\n\tprint(\"x\",end=\"\")\n" :=
  ⟨(function_emission showTypeName "f"
      [{ id_ := "a", type_ := Ty.INT }, { id_ := "b", type_ := Ty.FLT }]
      (Block.mk [Node.Print "\"x\"" none]) [Ty.CHR] 3 "\tprint(\"x\",end=\"\")\n" rfl).1,
    by decide⟩

/-! ## Operators -/

/-- C14: for operands `l` and `r`, `AddOP`, `MnsOP`, `TmsOP` and `DivOP` compile, at any
indent, to `(`, `l` compiled inline, the operator `+`, `-`, `*` or `/`, `r` compiled
inline, `)`. -/
theorem arith_emission (showType : Ty → String) (l r : TypedNode) (t : Ty) (n : Nat)
    (a b : String) (hl : l.compile showType 0 = some a) (hr : r.compile showType 0 = some b) :
    (TypedNode.AddOP l r t).compile showType n = some ("(" ++ a ++ "+" ++ b ++ ")") ∧
    (TypedNode.MnsOP l r t).compile showType n = some ("(" ++ a ++ "-" ++ b ++ ")") ∧
    (TypedNode.TmsOP l r t).compile showType n = some ("(" ++ a ++ "*" ++ b ++ ")") ∧
    (TypedNode.DivOP l r t).compile showType n = some ("(" ++ a ++ "/" ++ b ++ ")") := by
  have ha : (TypedNode.AddOP l r t).compile showType n
      = (l.compile showType 0).bind (fun a => (r.compile showType 0).bind (fun b =>
          some ("(" ++ a ++ "+" ++ b ++ ")"))) := rfl
  have hm : (TypedNode.MnsOP l r t).compile showType n
      = (l.compile showType 0).bind (fun a => (r.compile showType 0).bind (fun b =>
          some ("(" ++ a ++ "-" ++ b ++ ")"))) := rfl
  have ht : (TypedNode.TmsOP l r t).compile showType n
      = (l.compile showType 0).bind (fun a => (r.compile showType 0).bind (fun b =>
          some ("(" ++ a ++ "*" ++ b ++ ")"))) := rfl
  have hd : (TypedNode.DivOP l r t).compile showType n
      = (l.compile showType 0).bind (fun a => (r.compile showType 0).bind (fun b =>
          some ("(" ++ a ++ "/" ++ b ++ ")"))) := rfl
  rw [ha, hm, ht, hd, hl, hr]
  exact ⟨rfl, rfl, rfl, rfl⟩

/-- Witness of C14: the operands `x` and `2`. -/
theorem arith_emission_witness :
    (TypedNode.AddOP (TypedNode.Var (VarNode.Variable "x" Ty.INT))
        (TypedNode.Value { _int := 2 } Ty.INT) Ty.INT).compile showTypeName 4
      = some ("(" ++ "x" ++ "+" ++ "2" ++ ")") ∧
    (TypedNode.MnsOP (TypedNode.Var (VarNode.Variable "x" Ty.INT))
        (TypedNode.Value { _int := 2 } Ty.INT) Ty.INT).compile showTypeName 4
      = some ("(" ++ "x" ++ "-" ++ "2" ++ ")") ∧
    (TypedNode.TmsOP (TypedNode.Var (VarNode.Variable "x" Ty.INT))
        (TypedNode.Value { _int := 2 } Ty.INT) Ty.INT).compile showTypeName 4
      = some ("(" ++ "x" ++ "*" ++ "2" ++ ")") ∧
    (TypedNode.DivOP (TypedNode.Var (VarNode.Variable "x" Ty.INT))
        (TypedNode.Value { _int := 2 } Ty.INT) Ty.INT).compile showTypeName 4
      = some ("(" ++ "x" ++ "/" ++ "2" ++ ")") :=
  arith_emission showTypeName (TypedNode.Var (VarNode.Variable "x" Ty.INT))
    (TypedNode.Value { _int := 2 } Ty.INT) Ty.INT 4 "x" "2" rfl rfl

/-- C15: for operands `l` and `r`, `EqlOP`, `SupOP`, `InfOP`, `SeqOP`, `IeqOP`, `OrOP` and
`AndOP` compile, at any indent, to `l` compiled inline, the operator, `r` compiled
inline, with no parenthesis of their own. -/
theorem relational_emission (showType : Ty → String) (l r : Node) (n : Nat)
    (a b : String) (hl : l.compile showType 0 = some a) (hr : r.compile showType 0 = some b) :
    (Node.EqlOP l r).compile showType n = some (a ++ "==" ++ b) ∧
    (Node.SupOP l r).compile showType n = some (a ++ ">" ++ b) ∧
    (Node.InfOP l r).compile showType n = some (a ++ "<" ++ b) ∧
    (Node.SeqOP l r).compile showType n = some (a ++ ">=" ++ b) ∧
    (Node.IeqOP l r).compile showType n = some (a ++ "<=" ++ b) ∧
    (Node.OrOP l r).compile showType n = some (a ++ " or " ++ b) ∧
    (Node.AndOP l r).compile showType n = some (a ++ " and " ++ b) := by
  have h1 : (Node.EqlOP l r).compile showType n
      = (l.compile showType 0).bind (fun a => (r.compile showType 0).bind (fun b =>
          some (a ++ "==" ++ b))) := rfl
  have h2 : (Node.SupOP l r).compile showType n
      = (l.compile showType 0).bind (fun a => (r.compile showType 0).bind (fun b =>
          some (a ++ ">" ++ b))) := rfl
  have h3 : (Node.InfOP l r).compile showType n
      = (l.compile showType 0).bind (fun a => (r.compile showType 0).bind (fun b =>
          some (a ++ "<" ++ b))) := rfl
  have h4 : (Node.SeqOP l r).compile showType n
      = (l.compile showType 0).bind (fun a => (r.compile showType 0).bind (fun b =>
          some (a ++ ">=" ++ b))) := rfl
  have h5 : (Node.IeqOP l r).compile showType n
      = (l.compile showType 0).bind (fun a => (r.compile showType 0).bind (fun b =>
          some (a ++ "<=" ++ b))) := rfl
  have h6 : (Node.OrOP l r).compile showType n
      = (l.compile showType 0).bind (fun a => (r.compile showType 0).bind (fun b =>
          some (a ++ " or " ++ b))) := rfl
  have h7 : (Node.AndOP l r).compile showType n
      = (l.compile showType 0).bind (fun a => (r.compile showType 0).bind (fun b =>
          some (a ++ " and " ++ b))) := rfl
  rw [h1, h2, h3, h4, h5, h6, h7, hl, hr]
  exact ⟨rfl, rfl, rfl, rfl, rfl, rfl, rfl⟩

/-- Witness of C15: the operands `x` and `2`. -/
theorem relational_emission_witness :
    (Node.EqlOP (Node.Typed (TypedNode.Var (VarNode.Variable "x" Ty.INT)))
        (Node.Typed (TypedNode.Value { _int := 2 } Ty.INT))).compile showTypeName 4
      = some ("x" ++ "==" ++ "2") ∧
    (Node.SupOP (Node.Typed (TypedNode.Var (VarNode.Variable "x" Ty.INT)))
        (Node.Typed (TypedNode.Value { _int := 2 } Ty.INT))).compile showTypeName 4
      = some ("x" ++ ">" ++ "2") ∧
    (Node.InfOP (Node.Typed (TypedNode.Var (VarNode.Variable "x" Ty.INT)))
        (Node.Typed (TypedNode.Value { _int := 2 } Ty.INT))).compile showTypeName 4
      = some ("x" ++ "<" ++ "2") ∧
    (Node.SeqOP (Node.Typed (TypedNode.Var (VarNode.Variable "x" Ty.INT)))
        (Node.Typed (TypedNode.Value { _int := 2 } Ty.INT))).compile showTypeName 4
      = some ("x" ++ ">=" ++ "2") ∧
    (Node.IeqOP (Node.Typed (TypedNode.Var (VarNode.Variable "x" Ty.INT)))
        (Node.Typed (TypedNode.Value { _int := 2 } Ty.INT))).compile showTypeName 4
      = some ("x" ++ "<=" ++ "2") ∧
    (Node.OrOP (Node.Typed (TypedNode.Var (VarNode.Variable "x" Ty.INT)))
        (Node.Typed (TypedNode.Value { _int := 2 } Ty.INT))).compile showTypeName 4
      = some ("x" ++ " or " ++ "2") ∧
    (Node.AndOP (Node.Typed (TypedNode.Var (VarNode.Variable "x" Ty.INT)))
        (Node.Typed (TypedNode.Value { _int := 2 } Ty.INT))).compile showTypeName 4
      = some ("x" ++ " and " ++ "2") :=
  relational_emission showTypeName (Node.Typed (TypedNode.Var (VarNode.Variable "x" Ty.INT)))
    (Node.Typed (TypedNode.Value { _int := 2 } Ty.INT)) 4 "x" "2" rfl rfl

/-- Whatever the operands, `XorOP` and `AndOP` compile to the same text. -/
theorem xor_compiles_as_and (showType : Ty → String) (l r : Node) (n : Nat) :
    (Node.XorOP l r).compile showType n = (Node.AndOP l r).compile showType n := rfl

/-- C16 (the code at the failing input): for the operands `a` and `b`, `XorOP` emits
`a and b`, the very text `AndOP` emits, joining the operands with the conjunction
operator. -/
theorem xor_emits_conjunction :
    (Node.XorOP (Node.Typed (TypedNode.Var (VarNode.Variable "a" Ty.INT)))
        (Node.Typed (TypedNode.Var (VarNode.Variable "b" Ty.INT)))).compile showTypeName 0
      = some "a and b" ∧
    (Node.AndOP (Node.Typed (TypedNode.Var (VarNode.Variable "a" Ty.INT)))
        (Node.Typed (TypedNode.Var (VarNode.Variable "b" Ty.INT)))).compile showTypeName 0
      = some "a and b" ∧
    "a and b" = "a" ++ " and " ++ "b" := by
  refine ⟨by rfl, by rfl, by decide⟩

/-! ## Expressions and the indent argument -/

/-- The emission of a `Funcall` at level `lvl` is `lvl` tabs followed by its emission at
level 0. -/
theorem funcall_indent (showType : Ty → String) (f : String)
    (ps : List (Nat × TypedNode)) (t : Ty) (lvl : Nat) :
    (TypedNode.Funcall f ps t).compile showType lvl
      = ((TypedNode.Funcall f ps t).compile showType 0).map (fun s => indent lvl ++ s) := by
  have h : ∀ n, (TypedNode.Funcall f ps t).compile showType n
      = (compileParams showType ps (ps.getLast?.map Prod.fst)).bind (fun x =>
          some (indent n ++ f ++ "(" ++ x ++ ")")) := fun _ => rfl
  rw [h lvl, h 0]
  cases compileParams showType ps (ps.getLast?.map Prod.fst) with
  | none => rfl
  | some x =>
    have h0 : indent 0 = "" := rfl
    simp only [Option.some_bind, Option.map_some', h0, String.empty_append,
      String.append_assoc]

/-- Counterexample to C17: the call `f()` compiled at indent 2 emits two tabs before
`f()`; its emission depends on the indent argument. -/
theorem expression_ignores_indent_counterexample :
    (Node.Typed (TypedNode.Funcall "f" [] Ty.INT)).compile showTypeName 0 = some "f()" ∧
    (Node.Typed (TypedNode.Funcall "f" [] Ty.INT)).compile showTypeName 2 = some "\t\tf()" ∧
    (Node.Typed (TypedNode.Funcall "f" [] Ty.INT)).compile showTypeName 0
      ≠ (Node.Typed (TypedNode.Funcall "f" [] Ty.INT)).compile showTypeName 2 := by
  refine ⟨by rfl, by rfl, by decide⟩

/-- C17 (amended): a literal, a reference to a variable or an array slot, an arithmetic,
relational or logical operator and a `NotOP` emit the same fragment at every indent; a
`Funcall` emits its indent argument as leading tabs before the fragment it emits at
indent 0. -/
theorem expression_ignores_indent (showType : Ty → String) (e : Node) (i j : Nat)
    (h : e.isExpression = true) :
    e.compile showType i = e.compile showType j ∧
    ∀ (f : String) (ps : List (Nat × TypedNode)) (t : Ty),
      (Node.Typed (TypedNode.Funcall f ps t)).compile showType i
        = ((Node.Typed (TypedNode.Funcall f ps t)).compile showType 0).map
            (fun s => indent i ++ s) := by
  refine ⟨?_, fun f ps t => funcall_indent showType f ps t i⟩
  cases e with
  | Typed t =>
    cases t with
    | Var v => cases v <;> first | rfl | exact Bool.noConfusion h
    | Funcall _ _ _ => exact Bool.noConfusion h
    | Function _ _ _ _ => exact Bool.noConfusion h
    | _ => rfl
  | Block _ => exact Bool.noConfusion h
  | Assignment _ _ => exact Bool.noConfusion h
  | Declaration _ => exact Bool.noConfusion h
  | If _ _ _ => exact Bool.noConfusion h
  | For _ _ _ _ _ => exact Bool.noConfusion h
  | While _ _ => exact Bool.noConfusion h
  | Print _ _ => exact Bool.noConfusion h
  | Read _ => exact Bool.noConfusion h
  | Return _ => exact Bool.noConfusion h
  | _ => rfl

/-- Witness of C17 (amended): the sum `(x+a[1])` at indents 0 and 3. -/
theorem expression_ignores_indent_witness :
    (Node.Typed (TypedNode.AddOP (TypedNode.Var (VarNode.Variable "x" Ty.INT))
        (TypedNode.Var (VarNode.ArrayAccess "a" (-1) Ty.INT
          (Node.Typed (TypedNode.Value { _int := 1 } Ty.INT)))) Ty.INT)).compile showTypeName 0
      = (Node.Typed (TypedNode.AddOP (TypedNode.Var (VarNode.Variable "x" Ty.INT))
        (TypedNode.Var (VarNode.ArrayAccess "a" (-1) Ty.INT
          (Node.Typed (TypedNode.Value { _int := 1 } Ty.INT)))) Ty.INT)).compile showTypeName 3 ∧
    (Node.Typed (TypedNode.AddOP (TypedNode.Var (VarNode.Variable "x" Ty.INT))
        (TypedNode.Var (VarNode.ArrayAccess "a" (-1) Ty.INT
          (Node.Typed (TypedNode.Value { _int := 1 } Ty.INT)))) Ty.INT)).compile showTypeName 3
      = some "(x+a[1])" :=
  ⟨(expression_ignores_indent showTypeName
      (Node.Typed (TypedNode.AddOP (TypedNode.Var (VarNode.Variable "x" Ty.INT))
        (TypedNode.Var (VarNode.ArrayAccess "a" (-1) Ty.INT
          (Node.Typed (TypedNode.Value { _int := 1 } Ty.INT)))) Ty.INT)) 0 3 rfl).1, by rfl⟩

/-! ## Arrays -/

/-- C18: for every identifier `a`, size `s ≥ 0` and indent `n`, an `ArrayDeclaration`
emits `n` tabs followed by `a=[0 for _ in range(s)]`, `s` written in decimal; size 0
gives `a=[0 for _ in range(0)]`. -/
theorem arrayDeclaration_emission (showType : Ty → String) (a : String) (s : Nat) (t : Ty)
    (n : Nat) :
    (newArrayDeclaration a (s : Int) t).compile showType n
      = some (indent n ++ (a ++ "=[0 for _ in range(" ++ toString s ++ ")]")) ∧
    (newArrayDeclaration a 0 t).compile showType n
      = some (indent n ++ (a ++ "=[0 for _ in range(0)]")) := by
  have h : ∀ k : Nat, (newArrayDeclaration a (k : Int) t).compile showType n
      = some (indent n ++ (a ++ "=[0 for _ in range(" ++ toString k ++ ")]")) := by
    intro k
    show (VarNode.ArrayDeclaration a (k : Int) t).compile showType n = _
    rw [compile_ArrayDeclaration]
    have hk : toString (k : Int) = toString k := rfl
    rw [hk]; simp only [String.append_assoc]
  refine ⟨h s, ?_⟩
  show (VarNode.ArrayDeclaration a 0 t).compile showType n = _
  rw [compile_ArrayDeclaration]
  have h0 : toString (0 : Int) = "0" := rfl
  have hl : "=[0 for _ in range(" ++ ("0" ++ ")]") = "=[0 for _ in range(0)]" := by decide
  rw [h0]; simp only [String.append_assoc]; rw [hl]

/-- C19: for every array identifier `a` and index expression `idx`, an `ArrayAccess`
emits `a`, `[`, `idx` compiled inline, `]`, whatever the size field and the indent: no
range check is emitted and no declared size enters the text. -/
theorem arrayAccess_emission (showType : Ty → String) (a : String) (t : Ty) (idx : Node)
    (n : Nat) (x : String) (hx : idx.compile showType 0 = some x) :
    (newArrayAccess a t idx).compile showType n = some (a ++ "[" ++ x ++ "]") ∧
    ∀ size : Int, (VarNode.ArrayAccess a size t idx).compile showType n
      = some (a ++ "[" ++ x ++ "]") := by
  have h : ∀ size : Int, (VarNode.ArrayAccess a size t idx).compile showType n
      = some (a ++ "[" ++ x ++ "]") := by
    intro size
    rw [compile_ArrayAccess, hx]; rfl
  exact ⟨h (-1), h⟩

/-- Witness of C19: for an array `a` declared with size 5, the index 5 is emitted as
`a[5]`, in the same shape as the index 4. -/
theorem arrayAccess_emission_witness :
    ((newArrayAccess "a" Ty.INT
        (Node.Typed (TypedNode.Value { _int := 5 } Ty.INT))).compile showTypeName 0
      = some ("a" ++ "[" ++ "5" ++ "]") ∧
     ∀ size : Int, (VarNode.ArrayAccess "a" size Ty.INT
        (Node.Typed (TypedNode.Value { _int := 5 } Ty.INT))).compile showTypeName 0
      = some ("a" ++ "[" ++ "5" ++ "]")) ∧
    (newArrayAccess "a" Ty.INT
        (Node.Typed (TypedNode.Value { _int := 4 } Ty.INT))).compile showTypeName 0
      = some "a[4]" :=
  ⟨arrayAccess_emission showTypeName "a" Ty.INT
      (Node.Typed (TypedNode.Value { _int := 5 } Ty.INT)) 0 "5" rfl, by rfl⟩

/-- Counterexample to C20: a node built by the `ArrayAccess` constructor has size `-1`. -/
theorem array_size_nonneg_counterexample :
    (newArrayAccess "a" Ty.CHR (Node.Typed (TypedNode.Value { _int := 0 } Ty.INT))).getSize
      = some (-1) ∧
    ¬ ∃ s : Int, (newArrayAccess "a" Ty.CHR
        (Node.Typed (TypedNode.Value { _int := 0 } Ty.INT))).getSize = some s ∧ 0 ≤ s := by
  refine ⟨rfl, ?_⟩
  rintro ⟨s, hs, h0⟩
  have h : (newArrayAccess "a" Ty.CHR
      (Node.Typed (TypedNode.Value { _int := 0 } Ty.INT))).getSize = some (-1) := rfl
  rw [h] at hs
  have := Option.some.inj hs
  omega

/-- C20 (amended): a node built by the `Array` or `ArrayDeclaration` constructor with a
non-negative size argument returns that argument from `getSize()`, a value `≥ 0`; every
node built by the `ArrayAccess` constructor returns `-1`. -/
theorem array_size_of_ctor (name : String) (size : Int) (type : Ty) (index : Node)
    (h : 0 ≤ size) :
    ((newArray name size type).getSize = some size ∧
     (newArrayDeclaration name size type).getSize = some size ∧
     ∀ s, (newArray name size type).getSize = some s ∨
        (newArrayDeclaration name size type).getSize = some s → 0 ≤ s) ∧
    (newArrayAccess name type index).getSize = some (-1) := by
  refine ⟨⟨rfl, rfl, ?_⟩, rfl⟩
  intro s hs
  have e1 : (newArray name size type).getSize = some size := rfl
  have e2 : (newArrayDeclaration name size type).getSize = some size := rfl
  rcases hs with hs | hs
  · rw [e1] at hs; rw [← Option.some.inj hs]; exact h
  · rw [e2] at hs; rw [← Option.some.inj hs]; exact h

/-- Witness of C20 (amended): the size argument 5. -/
theorem array_size_of_ctor_witness :
    ((newArray "a" 5 Ty.INT).getSize = some 5 ∧
     (newArrayDeclaration "a" 5 Ty.INT).getSize = some 5 ∧
     ∀ s, (newArray "a" 5 Ty.INT).getSize = some s ∨
        (newArrayDeclaration "a" 5 Ty.INT).getSize = some s → 0 ≤ s) ∧
    (newArrayAccess "a" Ty.INT (Node.Typed (TypedNode.Value { _int := 0 } Ty.INT))).getSize
      = some (-1) :=
  array_size_of_ctor "a" 5 Ty.INT (Node.Typed (TypedNode.Value { _int := 0 } Ty.INT))
    (by decide)

/-! ## Input and output statements -/

theorem newline_not_mem_indent (n : Nat) : '\n' ∉ (indent n).data := by
  intro h
  have h2 : '\n' ∈ List.replicate n '\t' := h
  have h3 := List.eq_of_mem_replicate h2
  exact absurd h3 (by decide)

/-- C21: a `Print` compiled at indent `n` emits `n` tabs, `print(`, the stored string
verbatim (built from a string) or the expression compiled inline (built from an
expression), then `,end="")`. The parts written by `Print` itself hold no line
terminator: when the argument text holds none, the emission holds none. -/
theorem print_emission (showType : Ty → String) (str : String) (c : Node) (n : Nat)
    (co : String) (hc : c.compile showType 0 = some co) :
    (newPrintStr str).compile showType n
      = some (indent n ++ "print(" ++ str ++ ",end=\"\")") ∧
    (newPrintContent c).compile showType n
      = some (indent n ++ "print(" ++ co ++ ",end=\"\")") ∧
    ∀ arg : String, '\n' ∉ arg.data →
      '\n' ∉ (indent n ++ "print(" ++ arg ++ ",end=\"\")").data := by
  refine ⟨?_, ?_, ?_⟩
  · show (Node.Print str none).compile showType n = _
    rw [compile_Print_none]
  · show (Node.Print "" (some c)).compile showType n = _
    rw [compile_Print_some, hc]; rfl
  · intro arg harg h
    simp only [String.data_append, List.mem_append] at h
    rcases h with ((h | h) | h) | h
    · exact newline_not_mem_indent n h
    · exact absurd h (by decide)
    · exact harg h
    · exact absurd h (by decide)

/-- Witness of C21: `print("hi",end="")` and `print(x,end="")` at indent 1. -/
theorem print_emission_witness :
    (newPrintStr "\"hi\"").compile showTypeName 1
      = some (indent 1 ++ "print(" ++ "\"hi\"" ++ ",end=\"\")") ∧
    (newPrintContent (Node.Typed (TypedNode.Var (VarNode.Variable "x" Ty.INT)))).compile
        showTypeName 1
      = some (indent 1 ++ "print(" ++ "x" ++ ",end=\"\")") ∧
    indent 1 ++ "print(" ++ "x" ++ ",end=\"\")" = "\tprint(x,end=\"\")" :=
  ⟨(print_emission showTypeName "\"hi\""
      (Node.Typed (TypedNode.Var (VarNode.Variable "x" Ty.INT))) 1 "x" rfl).1,
   (print_emission showTypeName "\"hi\""
      (Node.Typed (TypedNode.Var (VarNode.Variable "x" Ty.INT))) 1 "x" rfl).2.1,
   by decide⟩

/-- The text of a `Read`: the indentation, the destination compiled inline and the
suffix selected by its type. -/
theorem read_emission (showType : Ty → String) (v : TypedNode) (n : Nat) (vo : String)
    (t : Ty) (hv : v.compile showType 0 = some vo) (ht : v.type = some t) :
    (Node.Read v).compile showType n = some (indent n ++ vo ++ readSuffix t) := by
  have h : (Node.Read v).compile showType n
      = (v.compile showType 0).bind (fun x => v.type.bind (fun t =>
          some (indent n ++ x ++ readSuffix t))) := rfl
  rw [h, hv, ht]; rfl

/-- C22 (the code at the failing input): reading into the Float variable `x` emits
`x = flt(input())`; the wrapper is `flt(`, not the `float(` that `Assignment` writes for
a Float destination. For an Integer variable the emission is `x = int(input())`, for a
Character variable `x = input()`. -/
theorem read_float_wrapper :
    (Node.Read (TypedNode.Var (VarNode.Variable "x" Ty.FLT))).compile showTypeName 0
      = some "x = flt(input())" ∧
    (Node.Read (TypedNode.Var (VarNode.Variable "x" Ty.FLT))).compile showTypeName 0
      ≠ some "x = float(input())" ∧
    castOpen Ty.FLT = "float(" ∧
    (Node.Read (TypedNode.Var (VarNode.Variable "x" Ty.INT))).compile showTypeName 0
      = some "x = int(input())" ∧
    (Node.Read (TypedNode.Var (VarNode.Variable "x" Ty.CHR))).compile showTypeName 0
      = some "x = input()" := by
  refine ⟨by rfl, by decide, by rfl, by rfl, by rfl⟩

/-! ## Literals read back -/

theorem digitValue_digitChar (k : Nat) (h : k < 10) : digitValue (Nat.digitChar k) = k := by
  interval_cases k <;> rfl

theorem isDigit_digitChar (k : Nat) (h : k < 10) : (Nat.digitChar k).isDigit = true := by
  interval_cases k <;> rfl

theorem toDigitsCore_foldl (fuel : Nat) :
    ∀ (n : Nat) (ds : List Char), n < fuel →
      (Nat.toDigitsCore 10 fuel n ds).foldl (fun a c => 10 * a + digitValue c) 0
        = ds.foldl (fun a c => 10 * a + digitValue c) n := by
  induction fuel with
  | zero => intro n ds h; omega
  | succ fuel ih =>
    intro n ds h
    rw [Nat.toDigitsCore]
    have hd : digitValue (Nat.digitChar (n % 10)) = n % 10 :=
      digitValue_digitChar _ (Nat.mod_lt _ (by decide))
    by_cases h0 : n / 10 = 0
    · simp only [h0, if_true, List.foldl_cons, hd]
      have : 10 * 0 + n % 10 = n := by omega
      rw [this]
    · simp only [h0, if_false]
      rw [ih (n / 10) _ (by omega), List.foldl_cons, hd]
      have : 10 * (n / 10) + n % 10 = n := by omega
      rw [this]

theorem toDigitsCore_all (fuel : Nat) :
    ∀ (n : Nat) (ds : List Char), ds.all Char.isDigit = true →
      (Nat.toDigitsCore 10 fuel n ds).all Char.isDigit = true := by
  induction fuel with
  | zero => intro n ds h; rw [Nat.toDigitsCore]; exact h
  | succ fuel ih =>
    intro n ds h
    rw [Nat.toDigitsCore]
    have hd : (Nat.digitChar (n % 10)).isDigit = true :=
      isDigit_digitChar _ (Nat.mod_lt _ (by decide))
    have hc : (Nat.digitChar (n % 10) :: ds).all Char.isDigit = true := by
      rw [List.all_cons, hd, h]; rfl
    by_cases h0 : n / 10 = 0
    · simp only [h0, if_true]; exact hc
    · simp only [h0, if_false]; exact ih _ _ hc

theorem toDigitsCore_ne_nil (fuel : Nat) :
    ∀ (n : Nat) (ds : List Char), (0 < fuel ∨ ds ≠ []) →
      Nat.toDigitsCore 10 fuel n ds ≠ [] := by
  induction fuel with
  | zero =>
    intro n ds h
    rw [Nat.toDigitsCore]
    rcases h with h | h
    · omega
    · exact h
  | succ fuel ih =>
    intro n ds _
    rw [Nat.toDigitsCore]
    by_cases h0 : n / 10 = 0
    · simp only [h0, if_true]; exact List.cons_ne_nil _ _
    · simp only [h0, if_false]; exact ih _ _ (Or.inr (List.cons_ne_nil _ _))

/-- The decimal text of a natural number reads back as that number. -/
theorem readDigits_toDigits (m : Nat) : readDigits (Nat.toDigits 10 m) = some m := by
  have h1 : Nat.toDigits 10 m ≠ [] := toDigitsCore_ne_nil (m + 1) m [] (Or.inl (by omega))
  have h2 : (Nat.toDigits 10 m).all Char.isDigit = true :=
    toDigitsCore_all (m + 1) m [] rfl
  have h3 : (Nat.toDigits 10 m).foldl (fun a c => 10 * a + digitValue c) 0 = m := by
    have := toDigitsCore_foldl (m + 1) m [] (by omega)
    simpa using this
  rw [readDigits, if_pos ⟨h1, h2⟩, h3]

theorem toString_nat_data (m : Nat) : (toString m).data = Nat.toDigits 10 m := rfl

theorem toString_negSucc_data (m : Nat) :
    (toString (Int.negSucc m)).data = '-' :: Nat.toDigits 10 (m + 1) := rfl

theorem toString_ofNat_data (m : Nat) :
    (toString (Int.ofNat m)).data = Nat.toDigits 10 m := rfl

/-- The decimal text of an integer reads back as that integer. -/
theorem readIntLiteral_toString (n : Int) : readIntLiteral (toString n) = some n := by
  cases n with
  | ofNat m =>
    rw [readIntLiteral, toString_ofNat_data]
    have h2 : (Nat.toDigits 10 m).all Char.isDigit = true :=
      toDigitsCore_all (m + 1) m [] rfl
    split
    · rename_i cs heq
      rw [heq, List.all_cons] at h2
      have : Char.isDigit '-' = false := rfl
      rw [this] at h2
      exact absurd h2 (by simp)
    · rw [readDigits_toDigits]; rfl
  | negSucc m =>
    rw [readIntLiteral, toString_negSucc_data]
    simp only [readDigits_toDigits, Option.map_some']
    rfl

/-- C23: for every integer `n` held in the payload, `Value(n, Integer).compile` emits
the decimal text of `n`, which begins with `-` exactly when `n` is negative, and this
text reads back as `n`. -/
theorem int_literal_roundtrip (showType : Ty → String) (v : type_t) (lvl : Nat) :
    (TypedNode.Value v Ty.INT).compile showType lvl = some (toString v._int) ∧
    readIntLiteral (toString v._int) = some v._int ∧
    (v._int < 0 ↔ (toString v._int).data.head? = some '-') := by
  refine ⟨rfl, readIntLiteral_toString _, ?_⟩
  cases h : v._int with
  | ofNat m =>
    rw [toString_ofNat_data]
    constructor
    · intro hneg
      have : (0 : Int) ≤ Int.ofNat m := Int.ofNat_nonneg m
      omega
    · intro hhead
      have h2 : (Nat.toDigits 10 m).all Char.isDigit = true :=
        toDigitsCore_all (m + 1) m [] rfl
      cases hd : Nat.toDigits 10 m with
      | nil => rw [hd] at hhead; simp at hhead
      | cons c cs =>
        rw [hd] at hhead h2
        simp only [List.head?_cons, Option.some.injEq] at hhead
        rw [hhead, List.all_cons] at h2
        have : Char.isDigit '-' = false := rfl
        rw [this] at h2
        exact absurd h2 (by simp)
  | negSucc m =>
    rw [toString_negSucc_data]
    constructor
    · intro _; rfl
    · intro _; exact Int.negSucc_lt_zero m

/-- A character other than the quote, the backslash, the line feed and the carriage
return, written between single quotes, reads back as itself. -/
theorem readCharLiteral_plain (v : type_t)
    (h : ¬ (v._chr = '\'' ∨ v._chr = '\\' ∨ v._chr = '\n' ∨ v._chr = '\r')) :
    readCharLiteral (compileValue v Ty.CHR) = some v._chr := by
  have hd : (compileValue v Ty.CHR).data = ['\'', v._chr, '\''] := rfl
  rw [readCharLiteral, hd]
  simp only [if_neg h]

/-- C24: `Value(c, Character).compile` writes `c` unescaped between single quotes. For the
quote character the emission is `'''`, for the backslash `'\'`, for the line feed a quote,
a line feed and a quote: none of the three reads back as a single-quoted literal, whereas
`'a'` reads back as `a`. -/
theorem char_literal_unescaped :
    (TypedNode.Value { _chr := '\'' } Ty.CHR).compile showTypeName 0 = some "'''" ∧
    readCharLiteral "'''" = none ∧
    (TypedNode.Value { _chr := '\\' } Ty.CHR).compile showTypeName 0 = some "'\\'" ∧
    readCharLiteral "'\\'" = none ∧
    (TypedNode.Value { _chr := '\n' } Ty.CHR).compile showTypeName 0 = some "'\n'" ∧
    readCharLiteral "'\n'" = none ∧
    (TypedNode.Value { _chr := 'a' } Ty.CHR).compile showTypeName 0 = some "'a'" ∧
    readCharLiteral "'a'" = some 'a' ∧
    readCharLiteral "'\\''" = some '\'' ∧
    readCharLiteral "'\\\\'" = some '\\' ∧
    readCharLiteral "'\\n'" = some '\n' := by
  refine ⟨by rfl, by rfl, by rfl, by rfl, by rfl, by rfl, by rfl, by rfl, by rfl, by rfl,
    by rfl⟩

/-! ## The copy bound for an array of size 0 -/

/-- For a declared size between 1 and `INT_MAX` the bound of the copy loop exceeds neither
the size of the array nor the number of content characters of the literal. -/
theorem copyBound_le (s n : Nat) (content : String) (hs : 1 ≤ s) (hs2 : s < 2 ^ 31)
    (hn : content.length = n) (hn2 : n + 2 < 2 ^ 31) :
    copyBound (s : Int) ("\"" ++ content ++ "\"") ≤ s ∧
    copyBound (s : Int) ("\"" ++ content ++ "\"") ≤ n := by
  rw [copyBound_quoted s n content hs hs2 hn hn2]
  constructor
  · exact le_trans (Nat.min_le_left _ _) (Nat.sub_le _ _)
  · exact Nat.min_le_right _ _

/-- C27: for an array of declared size 0 and the literal `"ab"`, `size` is 0 and
`size - 1`, computed in `unsigned int`, is 4294967295: the copy loop is written with
`range(4294967295)`, a bound above the size of the array (0) and above the number of
content characters (2). -/
theorem copy_bound_wraps_for_size_zero :
    (Node.Assignment (VarNode.Array "s" 0 Ty.ARR_CHR)
        (TypedNode.Value { _str := "\"ab\"" } Ty.ARR_CHR)).compile showTypeName 0
      = some ("s=[0 for _ in range(0)]\n"
          ++ "for _ZZ_TRANSPILER_STRINGSET_INDEX in range(4294967295):\n"
          ++ "\ts[_ZZ_TRANSPILER_STRINGSET_INDEX]=\"ab\"[_ZZ_TRANSPILER_STRINGSET_INDEX]") ∧
    copySize 0 "\"ab\"" = 0 ∧
    copyBound 0 "\"ab\"" = 4294967295 ∧
    ¬ (copyBound 0 "\"ab\"" ≤ 0) ∧
    ¬ (copyBound 0 "\"ab\"" ≤ 2) := by
  refine ⟨by rfl, by decide, by decide, by decide, by decide⟩

/-! ## Grouping of logical operators -/

/-- C28: for operands `a`, `b`, `c` emitting `x`, `y`, `z`, the trees
`AndOP(OrOP(a, b), c)` and `OrOP(a, AndOP(b, c))` both emit `x or y and z` at every
indent: the two groupings give the same text. -/
theorem logical_grouping_same_text (showType : Ty → String) (a b c : Node) (n : Nat)
    (x y z : String) (ha : a.compile showType 0 = some x)
    (hb : b.compile showType 0 = some y) (hc : c.compile showType 0 = some z) :
    (Node.AndOP (Node.OrOP a b) c).compile showType n
      = some (x ++ " or " ++ y ++ " and " ++ z) ∧
    (Node.OrOP a (Node.AndOP b c)).compile showType n
      = some (x ++ " or " ++ y ++ " and " ++ z) ∧
    (Node.AndOP (Node.OrOP a b) c).compile showType n
      = (Node.OrOP a (Node.AndOP b c)).compile showType n := by
  have hor : ∀ (l r : Node) (m : Nat), (Node.OrOP l r).compile showType m
      = (l.compile showType 0).bind (fun a => (r.compile showType 0).bind (fun b =>
          some (a ++ " or " ++ b))) := fun _ _ _ => rfl
  have hand : ∀ (l r : Node) (m : Nat), (Node.AndOP l r).compile showType m
      = (l.compile showType 0).bind (fun a => (r.compile showType 0).bind (fun b =>
          some (a ++ " and " ++ b))) := fun _ _ _ => rfl
  have h1 : (Node.AndOP (Node.OrOP a b) c).compile showType n
      = some (x ++ " or " ++ y ++ " and " ++ z) := by
    rw [hand, hor, ha, hb, hc]; rfl
  have h2 : (Node.OrOP a (Node.AndOP b c)).compile showType n
      = some (x ++ " or " ++ y ++ " and " ++ z) := by
    rw [hor, hand, ha, hb, hc]
    simp only [Option.some_bind, String.append_assoc]
  exact ⟨h1, h2, h1.trans h2.symm⟩

/-- Witness of C28: the operands `p`, `q`, `r`. -/
theorem logical_grouping_same_text_witness :
    (Node.AndOP (Node.OrOP (Node.Typed (TypedNode.Var (VarNode.Variable "p" Ty.INT)))
        (Node.Typed (TypedNode.Var (VarNode.Variable "q" Ty.INT))))
        (Node.Typed (TypedNode.Var (VarNode.Variable "r" Ty.INT)))).compile showTypeName 1
      = some ("p" ++ " or " ++ "q" ++ " and " ++ "r") ∧
    (Node.OrOP (Node.Typed (TypedNode.Var (VarNode.Variable "p" Ty.INT)))
        (Node.AndOP (Node.Typed (TypedNode.Var (VarNode.Variable "q" Ty.INT)))
        (Node.Typed (TypedNode.Var (VarNode.Variable "r" Ty.INT))))).compile showTypeName 1
      = some ("p" ++ " or " ++ "q" ++ " and " ++ "r") ∧
    (Node.AndOP (Node.OrOP (Node.Typed (TypedNode.Var (VarNode.Variable "p" Ty.INT)))
        (Node.Typed (TypedNode.Var (VarNode.Variable "q" Ty.INT))))
        (Node.Typed (TypedNode.Var (VarNode.Variable "r" Ty.INT)))).compile showTypeName 1
      = (Node.OrOP (Node.Typed (TypedNode.Var (VarNode.Variable "p" Ty.INT)))
        (Node.AndOP (Node.Typed (TypedNode.Var (VarNode.Variable "q" Ty.INT)))
        (Node.Typed (TypedNode.Var (VarNode.Variable "r" Ty.INT))))).compile showTypeName 1 :=
  logical_grouping_same_text showTypeName
    (Node.Typed (TypedNode.Var (VarNode.Variable "p" Ty.INT)))
    (Node.Typed (TypedNode.Var (VarNode.Variable "q" Ty.INT)))
    (Node.Typed (TypedNode.Var (VarNode.Variable "r" Ty.INT))) 1 "p" "q" "r" rfl rfl rfl

/-! ## The argument list of `Funcall::compile` -/

theorem compileParams_nil (showType : Ty → String) (back : Option Nat) :
    compileParams showType [] back = some "" := rfl

theorem compileParams_cons (showType : Ty → String) (p : Nat × TypedNode)
    (rest : List (Nat × TypedNode)) (back : Option Nat) :
    compileParams showType (p :: rest) back
      = (p.2.compile showType 0).bind (fun a =>
          (compileParams showType rest back).bind (fun r =>
            some (a ++ (if some p.1 ≠ back then "," else "") ++ r))) := rfl

theorem intercalate_cons_cons (s x y : String) (l : List String) :
    String.intercalate s (x :: y :: l) = x ++ s ++ String.intercalate s (y :: l) := by
  rw [String.intercalate, String.intercalate, String.intercalate.go, intercalate_go_eq,
    intercalate_go_eq]
  simp only [String.append_assoc]

theorem getLast?_mem_map_fst (q : Nat × TypedNode) (l : List (Nat × TypedNode)) :
    ∃ k, ((q :: l).getLast?.map Prod.fst) = some k ∧ k ∈ (q :: l).map Prod.fst := by
  have hne : (q :: l) ≠ [] := List.cons_ne_nil _ _
  refine ⟨((q :: l).getLast hne).1, ?_, ?_⟩
  · rw [List.getLast?_eq_getLast _ hne]; rfl
  · exact List.mem_map_of_mem _ (List.getLast_mem hne)

/-- With pairwise distinct pointers, the loop of `Funcall::compile` writes the emissions
of the parameters joined by `,`. -/
theorem compileParams_distinct (showType : Ty → String) :
    ∀ (params : List (Nat × TypedNode)) (outs : List String),
      (params.map Prod.fst).Nodup →
      List.Forall₂ (fun p o => p.2.compile showType 0 = some o) params outs →
      compileParams showType params (params.getLast?.map Prod.fst)
        = some (String.intercalate "," outs) := by
  intro params
  induction params with
  | nil =>
    intro outs _ hc
    cases hc
    rfl
  | cons p rest ih =>
    intro outs hd hc
    cases hc with
    | cons hp hrest =>
      rename_i o os
      rw [compileParams_cons, hp]
      cases rest with
      | nil =>
        cases hrest
        have hb : (([p] : List (Nat × TypedNode)).getLast?.map Prod.fst) = some p.1 := rfl
        have hi : String.intercalate "," [o] = o := rfl
        rw [hb, compileParams_nil, hi]
        simp only [Option.some_bind, ne_eq, not_true_eq_false, if_false, String.append_empty]
      | cons q rest2 =>
        have hback : ((p :: q :: rest2).getLast?.map Prod.fst)
            = ((q :: rest2).getLast?.map Prod.fst) := by
          rw [List.getLast?_cons_cons]
        rw [hback]
        rw [List.map_cons, List.nodup_cons] at hd
        rw [ih os hd.2 hrest]
        obtain ⟨k, hk, hmem⟩ := getLast?_mem_map_fst q rest2
        have hne : some p.1 ≠ ((q :: rest2).getLast?.map Prod.fst) := by
          rw [hk]
          intro he
          exact hd.1 ((Option.some.inj he) ▸ hmem)
        cases hrest with
        | cons hq hrest2 =>
          rename_i o2 os2
          rw [intercalate_cons_cons]
          simp only [Option.some_bind, if_pos hne]

/-- C29: for a call of `f` whose parameters have pairwise distinct pointers and emit
`o1 .. om` at indent 0, `Funcall::compile` at indent `n` emits `n` tabs, `f`, `(`, the
`oi` in list order joined by `,` (nothing between the brackets for `m = 0`, no `,` for
`m = 1`), then `)`. -/
theorem funcall_emission (showType : Ty → String) (f : String)
    (params : List (Nat × TypedNode)) (t : Ty) (n : Nat) (outs : List String)
    (hd : (params.map Prod.fst).Nodup)
    (hc : List.Forall₂ (fun p o => p.2.compile showType 0 = some o) params outs) :
    (TypedNode.Funcall f params t).compile showType n
      = some (indent n ++ f ++ "(" ++ String.intercalate "," outs ++ ")") := by
  have h : (TypedNode.Funcall f params t).compile showType n
      = (compileParams showType params (params.getLast?.map Prod.fst)).bind (fun x =>
          some (indent n ++ f ++ "(" ++ x ++ ")")) := rfl
  rw [h, compileParams_distinct showType params outs hd hc]
  rfl

/-- Witness of C29: the call `f(x,2,y)` at indent 1. -/
theorem funcall_emission_witness :
    (TypedNode.Funcall "f"
        [(1, TypedNode.Var (VarNode.Variable "x" Ty.INT)),
         (2, TypedNode.Value { _int := 2 } Ty.INT),
         (3, TypedNode.Var (VarNode.Variable "y" Ty.INT))] Ty.INT).compile showTypeName 1
      = some (indent 1 ++ "f" ++ "(" ++ String.intercalate "," ["x", "2", "y"] ++ ")") :=
  funcall_emission showTypeName "f"
    [(1, TypedNode.Var (VarNode.Variable "x" Ty.INT)),
     (2, TypedNode.Value { _int := 2 } Ty.INT),
     (3, TypedNode.Var (VarNode.Variable "y" Ty.INT))] Ty.INT 1 ["x", "2", "y"]
    (by decide)
    (List.Forall₂.cons rfl (List.Forall₂.cons rfl (List.Forall₂.cons rfl List.Forall₂.nil)))

/-- A parameter list holding the same pointer twice: the first occurrence equals
`params.back()` and no `,` is written. -/
theorem funcall_repeated_pointer :
    (TypedNode.Funcall "f"
        [(1, TypedNode.Var (VarNode.Variable "x" Ty.INT)),
         (1, TypedNode.Var (VarNode.Variable "x" Ty.INT))] Ty.INT).compile showTypeName 0
      = some "f(xx)" := by rfl

/-! ## Types of arithmetic trees -/

theorem selectType_INT_or_FLT (a b : Ty) :
    selectType a b = Ty.INT ∨ selectType a b = Ty.FLT := by
  cases a <;> cases b <;> decide

theorem selectType_eq_INT (a b : Ty) :
    selectType a b = Ty.INT ↔ a = Ty.INT ∧ b = Ty.INT := by
  cases a <;> cases b <;> decide

theorem newAddOP_type (a b : TypedNode) (ta tb : Ty) (ha : a.type = some ta)
    (hb : b.type = some tb) :
    ∃ n, newAddOP a b = some n ∧ n.type = some (selectType ta tb) :=
  ⟨TypedNode.AddOP a b (selectType ta tb), by simp [newAddOP, ha, hb], rfl⟩

theorem newMnsOP_type (a b : TypedNode) (ta tb : Ty) (ha : a.type = some ta)
    (hb : b.type = some tb) :
    ∃ n, newMnsOP a b = some n ∧ n.type = some (selectType ta tb) :=
  ⟨TypedNode.MnsOP a b (selectType ta tb), by simp [newMnsOP, ha, hb], rfl⟩

theorem newTmsOP_type (a b : TypedNode) (ta tb : Ty) (ha : a.type = some ta)
    (hb : b.type = some tb) :
    ∃ n, newTmsOP a b = some n ∧ n.type = some (selectType ta tb) :=
  ⟨TypedNode.TmsOP a b (selectType ta tb), by simp [newTmsOP, ha, hb], rfl⟩

theorem newDivOP_type (a b : TypedNode) (ta tb : Ty) (ha : a.type = some ta)
    (hb : b.type = some tb) :
    ∃ n, newDivOP a b = some n ∧ n.type = some (selectType ta tb) :=
  ⟨TypedNode.DivOP a b (selectType ta tb), by simp [newDivOP, ha, hb], rfl⟩

/-- A node returned by one of the four constructors holds `selectType` of two types. -/
theorem arith_ctor_type (l r n : TypedNode)
    (h : newAddOP l r = some n ∨ newMnsOP l r = some n ∨ newTmsOP l r = some n ∨
      newDivOP l r = some n) :
    ∃ ta tb, n.type = some (selectType ta tb) := by
  cases hl : l.type with
  | none =>
    rcases h with h | h | h | h <;>
      simp [newAddOP, newMnsOP, newTmsOP, newDivOP, hl] at h
  | some ta =>
    cases hr : r.type with
    | none =>
      rcases h with h | h | h | h <;>
        simp [newAddOP, newMnsOP, newTmsOP, newDivOP, hl, hr] at h
    | some tb =>
      refine ⟨ta, tb, ?_⟩
      rcases h with h | h | h | h
      · obtain ⟨m, hm, ht⟩ := newAddOP_type l r ta tb hl hr
        rw [hm] at h; rw [← Option.some.inj h]; exact ht
      · obtain ⟨m, hm, ht⟩ := newMnsOP_type l r ta tb hl hr
        rw [hm] at h; rw [← Option.some.inj h]; exact ht
      · obtain ⟨m, hm, ht⟩ := newTmsOP_type l r ta tb hl hr
        rw [hm] at h; rw [← Option.some.inj h]; exact ht
      · obtain ⟨m, hm, ht⟩ := newDivOP_type l r ta tb hl hr
        rw [hm] at h; rw [← Option.some.inj h]; exact ht

/-- One constructor call over two built subtrees. -/
theorem arith_step (mk : TypedNode → TypedNode → Option TypedNode)
    (hmk : ∀ a b ta tb, a.type = some ta → b.type = some tb →
      ∃ n, mk a b = some n ∧ n.type = some (selectType ta tb))
    (bl br : Option TypedNode) (ll lr : List TypedNode)
    (hl : ∃ n t, bl = some n ∧ n.type = some t ∧ (t = Ty.INT ∨ t = Ty.FLT) ∧
      (t = Ty.INT ↔ ∀ x ∈ ll, x.type = some Ty.INT))
    (hr : ∃ n t, br = some n ∧ n.type = some t ∧ (t = Ty.INT ∨ t = Ty.FLT) ∧
      (t = Ty.INT ↔ ∀ x ∈ lr, x.type = some Ty.INT)) :
    ∃ n t, (bl.bind (fun a => br.bind (fun b => mk a b))) = some n ∧ n.type = some t ∧
      (t = Ty.INT ∨ t = Ty.FLT) ∧ (t = Ty.INT ↔ ∀ x ∈ ll ++ lr, x.type = some Ty.INT) := by
  obtain ⟨nl, tl, hbl, htl, _, hil⟩ := hl
  obtain ⟨nr, tr, hbr, htr, _, hir⟩ := hr
  obtain ⟨n, hn, hnt⟩ := hmk nl nr tl tr htl htr
  refine ⟨n, selectType tl tr, ?_, hnt, selectType_INT_or_FLT tl tr, ?_⟩
  · rw [hbl, hbr]; exact hn
  · rw [selectType_eq_INT, hil, hir]
    constructor
    · intro h x hx
      rcases List.mem_append.mp hx with hx | hx
      · exact h.1 x hx
      · exact h.2 x hx
    · intro h
      exact ⟨fun x hx => h x (List.mem_append.mpr (Or.inl hx)),
        fun x hx => h x (List.mem_append.mpr (Or.inr hx))⟩

theorem ArithTree.build_add (l r : ArithTree) :
    (ArithTree.add l r).build = l.build.bind (fun a => r.build.bind (fun b => newAddOP a b)) :=
  rfl

theorem ArithTree.build_mns (l r : ArithTree) :
    (ArithTree.mns l r).build = l.build.bind (fun a => r.build.bind (fun b => newMnsOP a b)) :=
  rfl

theorem ArithTree.build_tms (l r : ArithTree) :
    (ArithTree.tms l r).build = l.build.bind (fun a => r.build.bind (fun b => newTmsOP a b)) :=
  rfl

theorem ArithTree.build_div (l r : ArithTree) :
    (ArithTree.div l r).build = l.build.bind (fun a => r.build.bind (fun b => newDivOP a b)) :=
  rfl

/-- Over leaves typed Integer or Float every constructor call succeeds, and the type of
the built node is Integer or Float, Integer exactly when every leaf is Integer. -/
theorem arith_build_inv (a : ArithTree) :
    (∀ x ∈ a.leaves, x.type = some Ty.INT ∨ x.type = some Ty.FLT) →
    ∃ n t, a.build = some n ∧ n.type = some t ∧ (t = Ty.INT ∨ t = Ty.FLT) ∧
      (t = Ty.INT ↔ ∀ x ∈ a.leaves, x.type = some Ty.INT) := by
  induction a with
  | leaf t =>
    intro h
    have ht := h t (List.mem_singleton.mpr rfl)
    rcases ht with ht | ht
    · refine ⟨t, Ty.INT, rfl, ht, Or.inl rfl, ?_⟩
      constructor
      · intro _ x hx
        rw [ArithTree.leaves, List.mem_singleton] at hx
        rw [hx]; exact ht
      · intro _; rfl
    · refine ⟨t, Ty.FLT, rfl, ht, Or.inr rfl, ?_⟩
      constructor
      · intro h0; exact absurd h0 (by decide)
      · intro h0
        have h1 := h0 t (List.mem_singleton.mpr rfl)
        rw [ht] at h1
        exact absurd (Option.some.inj h1) (by decide)
  | add l r ihl ihr =>
    intro h
    rw [ArithTree.build_add]
    exact arith_step newAddOP newAddOP_type l.build r.build l.leaves r.leaves
      (ihl (fun x hx => h x (List.mem_append.mpr (Or.inl hx))))
      (ihr (fun x hx => h x (List.mem_append.mpr (Or.inr hx))))
  | mns l r ihl ihr =>
    intro h
    rw [ArithTree.build_mns]
    exact arith_step newMnsOP newMnsOP_type l.build r.build l.leaves r.leaves
      (ihl (fun x hx => h x (List.mem_append.mpr (Or.inl hx))))
      (ihr (fun x hx => h x (List.mem_append.mpr (Or.inr hx))))
  | tms l r ihl ihr =>
    intro h
    rw [ArithTree.build_tms]
    exact arith_step newTmsOP newTmsOP_type l.build r.build l.leaves r.leaves
      (ihl (fun x hx => h x (List.mem_append.mpr (Or.inl hx))))
      (ihr (fun x hx => h x (List.mem_append.mpr (Or.inr hx))))
  | div l r ihl ihr =>
    intro h
    rw [ArithTree.build_div]
    exact arith_step newDivOP newDivOP_type l.build r.build l.leaves r.leaves
      (ihl (fun x hx => h x (List.mem_append.mpr (Or.inl hx))))
      (ihr (fun x hx => h x (List.mem_append.mpr (Or.inr hx))))

/-- C26: for a tree of `AddOP`, `MnsOP`, `TmsOP` and `DivOP` constructor calls over leaves
typed Integer or Float, every call succeeds and the type stored at the root is Integer if
and only if every leaf is Integer, and Float if and only if some leaf is Float; and a node
returned by one of the four constructors, whatever its operands, has neither Character nor
CharacterArray as its type. -/
theorem arith_tree_type (a : ArithTree)
    (h : ∀ x ∈ a.leaves, x.type = some Ty.INT ∨ x.type = some Ty.FLT) :
    (∃ n, a.build = some n ∧
      (n.type = some Ty.INT ↔ ∀ x ∈ a.leaves, x.type = some Ty.INT) ∧
      (n.type = some Ty.FLT ↔ ∃ x ∈ a.leaves, x.type = some Ty.FLT)) ∧
    (∀ l r n : TypedNode,
      (newAddOP l r = some n ∨ newMnsOP l r = some n ∨ newTmsOP l r = some n ∨
        newDivOP l r = some n) →
      n.type ≠ some Ty.CHR ∧ n.type ≠ some Ty.ARR_CHR) := by
  constructor
  · obtain ⟨n, t, hb, ht, hor, hiff⟩ := arith_build_inv a h
    refine ⟨n, hb, ?_, ?_⟩
    · rw [ht]
      constructor
      · intro h0; exact hiff.mp (Option.some.inj h0)
      · intro h0; rw [hiff.mpr h0]
    · rw [ht]
      constructor
      · intro h0
        have hne : ¬ (t = Ty.INT) := by
          rw [Option.some.inj h0]; decide
        have hall : ¬ ∀ x ∈ a.leaves, x.type = some Ty.INT := fun hx => hne (hiff.mpr hx)
        by_contra hex
        apply hall
        intro x hx
        rcases h x hx with h1 | h1
        · exact h1
        · exact absurd ⟨x, hx, h1⟩ hex
      · rintro ⟨x, hx, hxt⟩
        rcases hor with h1 | h1
        · have := hiff.mp h1 x hx
          rw [hxt] at this
          exact absurd (Option.some.inj this) (by decide)
        · rw [h1]
  · intro l r n hn
    obtain ⟨ta, tb, ht⟩ := arith_ctor_type l r n hn
    rw [ht]
    rcases selectType_INT_or_FLT ta tb with h1 | h1 <;> rw [h1] <;>
      exact ⟨by decide, by decide⟩

/-- Witness of C26: the tree `(1 + x) * 2.5` with `x` an Integer variable; its root is
typed Float. -/
theorem arith_tree_type_witness :
    (∃ n, (ArithTree.tms (ArithTree.add (ArithTree.leaf (TypedNode.Value { _int := 1 } Ty.INT))
          (ArithTree.leaf (TypedNode.Var (VarNode.Variable "x" Ty.INT))))
        (ArithTree.leaf (TypedNode.Value { _flt := "2.5" } Ty.FLT))).build = some n ∧
      (n.type = some Ty.INT ↔ ∀ x ∈ (ArithTree.tms (ArithTree.add
          (ArithTree.leaf (TypedNode.Value { _int := 1 } Ty.INT))
          (ArithTree.leaf (TypedNode.Var (VarNode.Variable "x" Ty.INT))))
        (ArithTree.leaf (TypedNode.Value { _flt := "2.5" } Ty.FLT))).leaves,
          x.type = some Ty.INT) ∧
      (n.type = some Ty.FLT ↔ ∃ x ∈ (ArithTree.tms (ArithTree.add
          (ArithTree.leaf (TypedNode.Value { _int := 1 } Ty.INT))
          (ArithTree.leaf (TypedNode.Var (VarNode.Variable "x" Ty.INT))))
        (ArithTree.leaf (TypedNode.Value { _flt := "2.5" } Ty.FLT))).leaves,
          x.type = some Ty.FLT)) ∧
    (∀ l r n : TypedNode,
      (newAddOP l r = some n ∨ newMnsOP l r = some n ∨ newTmsOP l r = some n ∨
        newDivOP l r = some n) →
      n.type ≠ some Ty.CHR ∧ n.type ≠ some Ty.ARR_CHR) :=
  arith_tree_type
    (ArithTree.tms (ArithTree.add (ArithTree.leaf (TypedNode.Value { _int := 1 } Ty.INT))
        (ArithTree.leaf (TypedNode.Var (VarNode.Variable "x" Ty.INT))))
      (ArithTree.leaf (TypedNode.Value { _flt := "2.5" } Ty.FLT)))
    (by
      intro x hx
      simp only [ArithTree.leaves, List.cons_append, List.nil_append, List.mem_cons,
        List.mem_singleton, List.not_mem_nil, or_false] at hx
      rcases hx with hx | hx | hx <;> rw [hx]
      · exact Or.inl rfl
      · exact Or.inl rfl
      · exact Or.inr rfl)

/-! ## Determinism of `display` -/

theorem pre_id : ∀ out : String, (fun o : String => o) out = out ++ (fun o : String => o) "" :=
  fun out => (String.append_empty out).symm

theorem pre_const (s : String) :
    ∀ out : String, (fun o : String => o ++ s) out = out ++ (fun o : String => o ++ s) "" := by
  intro out
  simp only [String.empty_append]

theorem pre_comp (f g : String → String) (hf : ∀ out, f out = out ++ f "")
    (hg : ∀ out, g out = out ++ g "") :
    ∀ out, g (f out) = out ++ g (f "") := by
  intro out
  rw [hg (f out), hg (f ""), hf out, String.append_assoc]

theorem displayFunParams_pre (ps : List Variable) :
    ∀ out, displayFunParams ps out = out ++ displayFunParams ps "" := by
  induction ps with
  | nil => intro out; exact (String.append_empty out).symm
  | cons p rest ih =>
    intro out
    show displayFunParams rest (out ++ p.id_ ++ ", ")
      = out ++ displayFunParams rest ("" ++ p.id_ ++ ", ")
    rw [ih (out ++ p.id_ ++ ", "), ih ("" ++ p.id_ ++ ", ")]
    simp only [String.append_assoc, String.empty_append]

/-! ### The node after `display()` is the node before -/

mutual
theorem varNode_display_fst : ∀ (v : VarNode) (out : String), (v.display out).1 = v
  | .Variable _ _, _ => rfl
  | .Array _ _ _, _ => rfl
  | .ArrayDeclaration _ _ _, _ => rfl
  | .ArrayAccess i size t index, out => by
      show VarNode.ArrayAccess i size t (index.display (out ++ i ++ "[")).1 = _
      rw [node_display_fst index]
theorem typedNode_display_fst : ∀ (t : TypedNode) (out : String), (t.display out).1 = t
  | .Value _ _, _ => rfl
  | .Var v, out => by
      show TypedNode.Var (v.display out).1 = _
      rw [varNode_display_fst v]
  | .Funcall functionName params t, out => by
      show TypedNode.Funcall functionName
        (displayParams params (out ++ "Funcall(" ++ functionName ++ ", [")).1 t = _
      rw [displayParams_fst params]
  | .AddOP l r t, out => by
      show TypedNode.AddOP (l.display (out ++ "AddOP(")).1
        (r.display ((l.display (out ++ "AddOP(")).2 ++ ", ")).1 t = _
      rw [typedNode_display_fst l, typedNode_display_fst r]
  | .MnsOP l r t, out => by
      show TypedNode.MnsOP (l.display (out ++ "MnsOP(")).1
        (r.display ((l.display (out ++ "MnsOP(")).2 ++ ", ")).1 t = _
      rw [typedNode_display_fst l, typedNode_display_fst r]
  | .TmsOP l r t, out => by
      show TypedNode.TmsOP (l.display (out ++ "TmsOP(")).1
        (r.display ((l.display (out ++ "TmsOP(")).2 ++ ", ")).1 t = _
      rw [typedNode_display_fst l, typedNode_display_fst r]
  | .DivOP l r t, out => by
      show TypedNode.DivOP (l.display (out ++ "DivOP(")).1
        (r.display ((l.display (out ++ "DivOP(")).2 ++ ", ")).1 t = _
      rw [typedNode_display_fst l, typedNode_display_fst r]
  | .Function id params block ts, out => by
      show TypedNode.Function id params (block.display
        (displayFunParams params (out ++ "Function(" ++ id ++ ", [") ++ "], ")).1 ts = _
      rw [block_display_fst block]
theorem displayParams_fst : ∀ (ps : List (Nat × TypedNode)) (out : String),
    (displayParams ps out).1 = ps
  | [], _ => rfl
  | p :: rest, out => by
      show (p.1, (p.2.display out).1)
        :: (displayParams rest ((p.2.display out).2 ++ ", ")).1 = _
      rw [typedNode_display_fst p.2, displayParams_fst rest]
theorem block_display_fst : ∀ (b : Block) (out : String), (b.display out).1 = b
  | .mk instructions_, out => by
      show Block.mk (displayInstructions instructions_ (out ++ "Block(" ++ "\n")).1 = _
      rw [displayInstructions_fst instructions_]
theorem displayInstructions_fst : ∀ (l : List Node) (out : String),
    (displayInstructions l out).1 = l
  | [], _ => rfl
  | o :: rest, out => by
      show (o.display out).1 :: (displayInstructions rest (o.display out).2).1 = _
      rw [node_display_fst o, displayInstructions_fst rest]
theorem node_display_fst : ∀ (n : Node) (out : String), (n.display out).1 = n
  | .Typed t, out => by
      show Node.Typed (t.display out).1 = _
      rw [typedNode_display_fst t]
  | .Block b, out => by
      show Node.Block (b.display out).1 = _
      rw [block_display_fst b]
  | .Assignment variable_ value, out => by
      show Node.Assignment (variable_.display (out ++ "Assignment(")).1
        (value.display ((variable_.display (out ++ "Assignment(")).2 ++ ",")).1 = _
      rw [varNode_display_fst variable_, typedNode_display_fst value]
  | .Declaration _, _ => rfl
  | .If condition block none, out => by
      show Node.If (condition.display (out ++ "If(")).1
        (block.display ((condition.display (out ++ "If(")).2 ++ ", ")).1 none = _
      rw [node_display_fst condition, block_display_fst block]
  | .If condition block (some elseBlock), out => by
      show Node.If (condition.display (out ++ "If(")).1
        (block.display ((condition.display (out ++ "If(")).2 ++ ", ")).1
        (some (elseBlock.display ((block.display
          ((condition.display (out ++ "If(")).2 ++ ", ")).2 ++ ", Else(")).1) = _
      rw [node_display_fst condition, block_display_fst block, block_display_fst elseBlock]
  | .For var begin_ end_ step block, out => by
      show Node.For var (begin_.display (out ++ "For(" ++ var.id_ ++ ", range(")).1
        (end_.display _).1 (step.display _).1 (block.display _).1 = _
      rw [node_display_fst begin_, node_display_fst end_, node_display_fst step,
        block_display_fst block]
  | .While condition block, out => by
      show Node.While (condition.display (out ++ "While(")).1
        (block.display ((condition.display (out ++ "While(")).2 ++ ", ")).1 = _
      rw [node_display_fst condition, block_display_fst block]
  | .EqlOP l r, out => by
      show Node.EqlOP (l.display (out ++ "EqlOP(")).1
        (r.display ((l.display (out ++ "EqlOP(")).2 ++ ", ")).1 = _
      rw [node_display_fst l, node_display_fst r]
  | .SupOP l r, out => by
      show Node.SupOP (l.display (out ++ "SupOP(")).1
        (r.display ((l.display (out ++ "SupOP(")).2 ++ ", ")).1 = _
      rw [node_display_fst l, node_display_fst r]
  | .InfOP l r, out => by
      show Node.InfOP (l.display (out ++ "InfOP(")).1
        (r.display ((l.display (out ++ "InfOP(")).2 ++ ", ")).1 = _
      rw [node_display_fst l, node_display_fst r]
  | .SeqOP l r, out => by
      show Node.SeqOP (l.display (out ++ "SeqOP(")).1
        (r.display ((l.display (out ++ "SeqOP(")).2 ++ ", ")).1 = _
      rw [node_display_fst l, node_display_fst r]
  | .IeqOP l r, out => by
      show Node.IeqOP (l.display (out ++ "IeqOP(")).1
        (r.display ((l.display (out ++ "IeqOP(")).2 ++ ", ")).1 = _
      rw [node_display_fst l, node_display_fst r]
  | .OrOP l r, out => by
      show Node.OrOP (l.display (out ++ "OrOP(")).1
        (r.display ((l.display (out ++ "OrOP(")).2 ++ ", ")).1 = _
      rw [node_display_fst l, node_display_fst r]
  | .AndOP l r, out => by
      show Node.AndOP (l.display (out ++ "AndOP(")).1
        (r.display ((l.display (out ++ "AndOP(")).2 ++ ", ")).1 = _
      rw [node_display_fst l, node_display_fst r]
  | .XorOP l r, out => by
      show Node.XorOP (l.display (out ++ "XorOP(")).1
        (r.display ((l.display (out ++ "XorOP(")).2 ++ ", ")).1 = _
      rw [node_display_fst l, node_display_fst r]
  | .NotOP param, out => by
      show Node.NotOP (param.display (out ++ "NotOP(")).1 = _
      rw [node_display_fst param]
  | .Print _ none, _ => rfl
  | .Print str (some content), out => by
      show Node.Print str (some (content.display (out ++ "Print(")).1) = _
      rw [node_display_fst content]
  | .Read variable_, out => by
      show Node.Read (variable_.display (out ++ "Read(")).1 = _
      rw [typedNode_display_fst variable_]
  | .Return returnExpr, out => by
      show Node.Return (returnExpr.display (out ++ "Return(")).1 = _
      rw [node_display_fst returnExpr]
end

/-! ### The text written does not depend on the content of the sink -/

mutual
theorem varNode_display_pre : ∀ (v : VarNode) (out : String),
    (v.display out).2 = out ++ (v.display "").2
  | .Variable i _, out => pre_const i out
  | .Array i _ _, out => pre_const i out
  | .ArrayDeclaration i size _, out =>
      pre_comp _ _ (pre_comp _ _ (pre_comp _ _ (pre_const i) (pre_const "["))
        (pre_const (toString size))) (pre_const "]") out
  | .ArrayAccess i _ _ index, out =>
      pre_comp _ _ (pre_comp _ _ (pre_comp _ _ (pre_const i) (pre_const "["))
        (node_display_pre index)) (pre_const "]") out
theorem typedNode_display_pre : ∀ (t : TypedNode) (out : String),
    (t.display out).2 = out ++ (t.display "").2
  | .Value v t, out => pre_const (displayValue v t) out
  | .Var v, out => varNode_display_pre v out
  | .Funcall functionName params _, out =>
      pre_comp _ _ (pre_comp _ _ (pre_comp _ _ (pre_comp _ _ (pre_comp _ _
        (pre_const "Funcall(") (pre_const functionName)) (pre_const ", ["))
        (displayParams_pre params)) (pre_const "])")) (pre_const "\n") out
  | .AddOP l r _, out =>
      pre_comp _ _ (pre_comp _ _ (pre_comp _ _ (pre_comp _ _ (pre_const "AddOP(")
        (typedNode_display_pre l)) (pre_const ", ")) (typedNode_display_pre r))
        (pre_const ")") out
  | .MnsOP l r _, out =>
      pre_comp _ _ (pre_comp _ _ (pre_comp _ _ (pre_comp _ _ (pre_const "MnsOP(")
        (typedNode_display_pre l)) (pre_const ", ")) (typedNode_display_pre r))
        (pre_const ")") out
  | .TmsOP l r _, out =>
      pre_comp _ _ (pre_comp _ _ (pre_comp _ _ (pre_comp _ _ (pre_const "TmsOP(")
        (typedNode_display_pre l)) (pre_const ", ")) (typedNode_display_pre r))
        (pre_const ")") out
  | .DivOP l r _, out =>
      pre_comp _ _ (pre_comp _ _ (pre_comp _ _ (pre_comp _ _ (pre_const "DivOP(")
        (typedNode_display_pre l)) (pre_const ", ")) (typedNode_display_pre r))
        (pre_const ")") out
  | .Function id params block _, out =>
      pre_comp _ _ (pre_comp _ _ (pre_comp _ _ (pre_comp _ _ (pre_comp _ _ (pre_comp _ _
        (pre_comp _ _ (pre_const "Function(") (pre_const id)) (pre_const ", ["))
        (displayFunParams_pre params)) (pre_const "], ")) (block_display_pre block))
        (pre_const ")")) (pre_const "\n") out
theorem displayParams_pre : ∀ (ps : List (Nat × TypedNode)) (out : String),
    (displayParams ps out).2 = out ++ (displayParams ps "").2
  | [], out => pre_id out
  | p :: rest, out =>
      pre_comp _ _ (pre_comp _ _ (typedNode_display_pre p.2) (pre_const ", "))
        (displayParams_pre rest) out
theorem block_display_pre : ∀ (b : Block) (out : String),
    (b.display out).2 = out ++ (b.display "").2
  | .mk instructions_, out =>
      pre_comp _ _ (pre_comp _ _ (pre_comp _ _ (pre_comp _ _ (pre_const "Block(")
        (pre_const "\n")) (displayInstructions_pre instructions_)) (pre_const ")"))
        (pre_const "\n") out
theorem displayInstructions_pre : ∀ (l : List Node) (out : String),
    (displayInstructions l out).2 = out ++ (displayInstructions l "").2
  | [], out => pre_id out
  | o :: rest, out =>
      pre_comp _ _ (node_display_pre o) (displayInstructions_pre rest) out
theorem node_display_pre : ∀ (n : Node) (out : String),
    (n.display out).2 = out ++ (n.display "").2
  | .Typed t, out => typedNode_display_pre t out
  | .Block b, out => block_display_pre b out
  | .Assignment variable_ value, out =>
      pre_comp _ _ (pre_comp _ _ (pre_comp _ _ (pre_comp _ _ (pre_comp _ _
        (pre_const "Assignment(") (varNode_display_pre variable_)) (pre_const ","))
        (typedNode_display_pre value)) (pre_const ")")) (pre_const "\n") out
  | .Declaration variable_, out =>
      pre_comp _ _ (pre_comp _ _ (pre_comp _ _ (pre_const "Declaration(")
        (pre_const variable_.id_)) (pre_const ")")) (pre_const "\n") out
  | .If condition block none, out =>
      pre_comp _ _ (pre_comp _ _ (pre_comp _ _ (pre_comp _ _ (pre_comp _ _
        (pre_const "If(") (node_display_pre condition)) (pre_const ", "))
        (block_display_pre block)) (pre_const ")")) (pre_const "\n") out
  | .If condition block (some elseBlock), out =>
      pre_comp _ _ (pre_comp _ _ (pre_comp _ _ (pre_comp _ _ (pre_comp _ _ (pre_comp _ _
        (pre_comp _ _ (pre_comp _ _ (pre_comp _ _
        (pre_const "If(") (node_display_pre condition)) (pre_const ", "))
        (block_display_pre block)) (pre_const ", Else(")) (block_display_pre elseBlock))
        (pre_const ")")) (pre_const "\n")) (pre_const ")")) (pre_const "\n") out
  | .For var begin_ end_ step block, out =>
      pre_comp _ _ (pre_comp _ _ (pre_comp _ _ (pre_comp _ _ (pre_comp _ _ (pre_comp _ _
        (pre_comp _ _ (pre_comp _ _ (pre_comp _ _ (pre_comp _ _ (pre_comp _ _
        (pre_const "For(") (pre_const var.id_)) (pre_const ", range("))
        (node_display_pre begin_)) (pre_const ",")) (node_display_pre end_)) (pre_const ","))
        (node_display_pre step)) (pre_const "), ")) (block_display_pre block))
        (pre_const ")")) (pre_const "\n") out
  | .While condition block, out =>
      pre_comp _ _ (pre_comp _ _ (pre_comp _ _ (pre_comp _ _ (pre_comp _ _
        (pre_const "While(") (node_display_pre condition)) (pre_const ", "))
        (block_display_pre block)) (pre_const ")")) (pre_const "\n") out
  | .EqlOP l r, out =>
      pre_comp _ _ (pre_comp _ _ (pre_comp _ _ (pre_comp _ _ (pre_const "EqlOP(")
        (node_display_pre l)) (pre_const ", ")) (node_display_pre r)) (pre_const ")") out
  | .SupOP l r, out =>
      pre_comp _ _ (pre_comp _ _ (pre_comp _ _ (pre_comp _ _ (pre_const "SupOP(")
        (node_display_pre l)) (pre_const ", ")) (node_display_pre r)) (pre_const ")") out
  | .InfOP l r, out =>
      pre_comp _ _ (pre_comp _ _ (pre_comp _ _ (pre_comp _ _ (pre_const "InfOP(")
        (node_display_pre l)) (pre_const ", ")) (node_display_pre r)) (pre_const ")") out
  | .SeqOP l r, out =>
      pre_comp _ _ (pre_comp _ _ (pre_comp _ _ (pre_comp _ _ (pre_const "SeqOP(")
        (node_display_pre l)) (pre_const ", ")) (node_display_pre r)) (pre_const ")") out
  | .IeqOP l r, out =>
      pre_comp _ _ (pre_comp _ _ (pre_comp _ _ (pre_comp _ _ (pre_const "IeqOP(")
        (node_display_pre l)) (pre_const ", ")) (node_display_pre r)) (pre_const ")") out
  | .OrOP l r, out =>
      pre_comp _ _ (pre_comp _ _ (pre_comp _ _ (pre_comp _ _ (pre_const "OrOP(")
        (node_display_pre l)) (pre_const ", ")) (node_display_pre r)) (pre_const ")") out
  | .AndOP l r, out =>
      pre_comp _ _ (pre_comp _ _ (pre_comp _ _ (pre_comp _ _ (pre_const "AndOP(")
        (node_display_pre l)) (pre_const ", ")) (node_display_pre r)) (pre_const ")") out
  | .XorOP l r, out =>
      pre_comp _ _ (pre_comp _ _ (pre_comp _ _ (pre_comp _ _ (pre_const "XorOP(")
        (node_display_pre l)) (pre_const ", ")) (node_display_pre r)) (pre_const ")") out
  | .NotOP param, out =>
      pre_comp _ _ (pre_comp _ _ (pre_const "NotOP(") (node_display_pre param))
        (pre_const ")") out
  | .Print str none, out =>
      pre_comp _ _ (pre_comp _ _ (pre_comp _ _ (pre_const "Print(") (pre_const str))
        (pre_const ");")) (pre_const "\n") out
  | .Print _ (some content), out =>
      pre_comp _ _ (pre_comp _ _ (pre_comp _ _ (pre_const "Print(")
        (node_display_pre content)) (pre_const ");")) (pre_const "\n") out
  | .Read variable_, out =>
      pre_comp _ _ (pre_comp _ _ (pre_comp _ _ (pre_const "Read(")
        (typedNode_display_pre variable_)) (pre_const ")")) (pre_const "\n") out
  | .Return returnExpr, out =>
      pre_comp _ _ (pre_comp _ _ (pre_const "Return(") (node_display_pre returnExpr))
        (pre_const ")") out
end

/-- C25: `display()` leaves the tree as it found it, so `compile` run after it emits what
it would have emitted before; the text it writes is `(node.display "").2` whatever the
sink held before the call; and a second `display()`, run on the tree and the sink as the
first call left them, writes the same text once more. -/
theorem display_deterministic (showType : Ty → String) (node : Node) (out1 out2 : String)
    (n : Nat) :
    (node.display out1).1 = node ∧
    (node.display out1).1.compile showType n = node.compile showType n ∧
    (node.display out1).2 = out1 ++ (node.display "").2 ∧
    (node.display out2).2 = out2 ++ (node.display "").2 ∧
    ((node.display out1).1.display (node.display out1).2).2
      = out1 ++ (node.display "").2 ++ (node.display "").2 := by
  refine ⟨node_display_fst node out1, ?_, node_display_pre node out1,
    node_display_pre node out2, ?_⟩
  · rw [node_display_fst node out1]
  · rw [node_display_fst node out1, node_display_pre node (node.display out1).2,
      node_display_pre node out1]

/-- The trace of `if x { print("a") } else { y = 1 }`, and that of a `Print` written twice
in a row. -/
theorem display_twice_example :
    ((Node.If (Node.Typed (TypedNode.Var (VarNode.Variable "x" Ty.INT)))
        (Block.mk [Node.Print "\"a\"" none])
        (some (Block.mk [Node.Assignment (VarNode.Variable "y" Ty.INT)
          (TypedNode.Value { _int := 1 } Ty.INT)]))).display "").2
      = "If(x, Block(\nPrint(\"a\");\n)\n, Else(Block(\nAssignment(y,1)\n)\n)\n)\n" ∧
    (((Node.Print "\"a\"" none).display "").1.display
        ((Node.Print "\"a\"" none).display "").2).2
      = "Print(\"a\");\nPrint(\"a\");\n" := by
  refine ⟨by rfl, by rfl⟩

end AST
